import Mathlib

/-!
Shallow embedding of `bot_fotos.py` (TuFibra evidence bot): the case/attempt
state machine, its SQLite tables as Lean lists, and the handler logic of the
callback/message handlers, translated function by function from the source.
Timestamps, message ids, admin checks and routing destinations are passed in
as explicit parameters (the source obtains them from the clock, Telegram and
the environment). The tables are lists in insertion (rowid) order; the
AUTOINCREMENT ids are carried as explicit counters.
-/

namespace BotFotos

/-- Constant `MAX_MEDIA_PER_STEP = 8` from the source configuration block. -/
def MAX_MEDIA_PER_STEP : Nat := 8

/-- Constant `STEP_FIRST_MEDIA = 5`. -/
def STEP_FIRST_MEDIA : Int := 5

/-- Constant `STEP_LAST_MEDIA = 15`. -/
def STEP_LAST_MEDIA : Int := 15

/-- A row of the `cases` table. `location_lat`/`location_lon` are SQL REALs the
core never computes with; they are carried as opaque strings. -/
structure CaseRow where
  case_id : Nat
  chat_id : Int
  user_id : Nat
  username : String
  created_at : String
  finished_at : Option String
  status : String
  step_index : Nat
  phase : String
  pending_step_no : Option Int
  technician_name : Option String
  service_type : Option String
  abonado_code : Option String
  location_lat : Option String
  location_lon : Option String
  location_at : Option String
  deriving DecidableEq

/-- A row of the `chat_config` table. -/
structure ChatConfigRow where
  chat_id : Int
  approval_required : Bool
  updated_at : Option String
  deriving DecidableEq

/-- A row of the `step_state` table: one attempt of one step of one case.
`step_no` is positive for evidence steps, negative for authorization
attempts. `approved` is the nullable tri-state column. -/
structure StepState where
  case_id : Nat
  step_no : Int
  attempt : Nat
  submitted : Bool
  approved : Option Bool
  reviewed_by : Option Nat
  reviewed_at : Option String
  created_at : String
  reject_reason : Option String
  reject_reason_by : Option Nat
  reject_reason_at : Option String
  deriving DecidableEq

/-- A row of the `media` table. -/
structure MediaRow where
  media_id : Nat
  case_id : Nat
  step_no : Int
  attempt : Nat
  file_type : String
  file_id : String
  file_unique_id : String
  tg_message_id : Nat
  meta_json : String
  created_at : String
  deriving DecidableEq

/-- A row of the `auth_text` table. -/
structure AuthTextRow where
  auth_id : Nat
  case_id : Nat
  step_no : Int
  attempt : Nat
  text : String
  tg_message_id : Nat
  created_at : String
  deriving DecidableEq

/-- A row of the `pending_inputs` table. -/
structure PendingInput where
  pending_id : Nat
  chat_id : Int
  user_id : Nat
  kind : String
  case_id : Nat
  step_no : Int
  attempt : Nat
  created_at : String
  reply_to_message_id : Option Nat
  tech_user_id : Option Nat
  deriving DecidableEq

/-- The whole persistent store: the five tables in rowid order plus the
AUTOINCREMENT counters. -/
structure DB where
  cases : List CaseRow
  chat_config : List ChatConfigRow
  step_state : List StepState
  media : List MediaRow
  auth_text : List AuthTextRow
  pending_inputs : List PendingInput
  next_case_id : Nat
  next_media_id : Nat
  next_auth_id : Nat
  next_pending_id : Nat
  deriving DecidableEq

/-- The empty store produced by `init_db` on a fresh file. -/
def emptyDB : DB :=
  ⟨[], [], [], [], [], [], 1, 1, 1, 1⟩

/-- Query `ORDER BY case_id DESC LIMIT 1` over a list of case rows. -/
def maxByCaseId : List CaseRow → Option CaseRow
  | [] => none
  | r :: rs =>
    match maxByCaseId rs with
    | none => some r
    | some b => if r.case_id ≥ b.case_id then some r else some b

/-- Query `ORDER BY attempt DESC LIMIT 1` over step-state rows. -/
def maxByAttempt : List StepState → Option StepState
  | [] => none
  | r :: rs =>
    match maxByAttempt rs with
    | none => some r
    | some b => if r.attempt ≥ b.attempt then some r else some b

/-- Query `ORDER BY pending_id DESC LIMIT 1` over pending-input rows. -/
def maxByPendingId : List PendingInput → Option PendingInput
  | [] => none
  | r :: rs =>
    match maxByPendingId rs with
    | none => some r
    | some b => if r.pending_id ≥ b.pending_id then some r else some b

/-- Mirrors `set_approval_required`: upsert into `chat_config`. -/
def set_approval_required (db : DB) (chat_id : Int) (required : Bool) (now : String) : DB :=
  if (db.chat_config.find? (fun e => e.chat_id == chat_id)).isSome then
    { db with chat_config :=
        db.chat_config.map (fun e =>
          if e.chat_id == chat_id then { e with approval_required := required, updated_at := some now } else e) }
  else
    { db with chat_config := db.chat_config ++ [⟨chat_id, required, some now⟩] }

/-- Mirrors `get_approval_required`: returns the stored flag, inserting the default
row `approval_required=1` (and returning `true`) when the chat has none. -/
def get_approval_required (db : DB) (chat_id : Int) (now : String) : Bool × DB :=
  match db.chat_config.find? (fun e => e.chat_id == chat_id) with
  | none => (true, { db with chat_config := db.chat_config ++ [⟨chat_id, true, some now⟩] })
  | some e => (e.approval_required, db)

/-- Mirrors `get_open_case`: latest OPEN case of (chat, user). -/
def get_open_case (db : DB) (chat_id : Int) (user_id : Nat) : Option CaseRow :=
  maxByCaseId (db.cases.filter
    (fun r => r.chat_id == chat_id && r.user_id == user_id && r.status == "OPEN"))

/-- Mirrors `get_case`: point lookup by `case_id`. -/
def get_case (db : DB) (case_id : Nat) : Option CaseRow :=
  db.cases.find? (fun r => r.case_id == case_id)

/-- Mirrors `update_case`: apply a field update to the row with the given id. Each
call site passes the exact record update its SQL `SET` clause performs. -/
def update_case (db : DB) (case_id : Nat) (f : CaseRow → CaseRow) : DB :=
  { db with cases := db.cases.map (fun r => if r.case_id == case_id then f r else r) }

/-- Mirrors `create_or_reset_case`: reset the existing OPEN case in place, or insert a
new one in the initial state. -/
def create_or_reset_case (db : DB) (chat_id : Int) (user_id : Nat) (username : String)
    (now : String) : CaseRow × DB :=
  match get_open_case db chat_id user_id with
  | some row =>
    let reset : CaseRow → CaseRow := fun r =>
      { r with created_at := now, finished_at := none, status := "OPEN", step_index := 0,
               phase := "WAIT_TECHNICIAN", pending_step_no := none, technician_name := none,
               service_type := none, abonado_code := none, location_lat := none,
               location_lon := none, location_at := none }
    (reset row, update_case db row.case_id reset)
  | none =>
    let r : CaseRow :=
      ⟨db.next_case_id, chat_id, user_id, username, now, none, "OPEN", 0,
       "WAIT_TECHNICIAN", none, none, none, none, none, none, none⟩
    (r, { db with cases := db.cases ++ [r], next_case_id := db.next_case_id + 1 })

/-- Key predicate of one `step_state` row. -/
def stepKey (c : Nat) (s : Int) (a : Nat) (r : StepState) : Bool :=
  r.case_id == c && r.step_no == s && r.attempt == a

/-- Point lookup of one `step_state` row (the `SELECT ... WHERE case_id=? AND
step_no=? AND attempt=?` queries of the review handlers). -/
def find_step (db : DB) (c : Nat) (s : Int) (a : Nat) : Option StepState :=
  db.step_state.find? (stepKey c s a)

/-- Mirrors `_max_attempt`: `MAX(attempt)` over (case, step), `0` when no row. -/
def _max_attempt (db : DB) (c : Nat) (s : Int) : Nat :=
  ((db.step_state.filter (fun r => r.case_id == c && r.step_no == s)).map
    (fun r => r.attempt)).foldr max 0

/-- Mirrors `ensure_step_state`: return the unsubmitted attempt of (case, step) when
one exists (`... AND submitted=0 ORDER BY attempt DESC LIMIT 1`), else insert
a fresh attempt numbered `_max_attempt + 1`, unsubmitted, approval unset. -/
def ensure_step_state (db : DB) (c : Nat) (s : Int) (now : String) : StepState × DB :=
  match maxByAttempt (db.step_state.filter
      (fun r => r.case_id == c && r.step_no == s && !r.submitted)) with
  | some row => (row, db)
  | none =>
    let a := _max_attempt db c s + 1
    let r : StepState := ⟨c, s, a, false, none, none, none, now, none, none, none⟩
    (r, { db with step_state := db.step_state ++ [r] })

/-- Mirrors `media_count`: `COUNT(*)` over (case, step, attempt) in `media`. -/
def media_count (db : DB) (c : Nat) (s : Int) (a : Nat) : Nat :=
  (db.media.filter (fun m => m.case_id == c && m.step_no == s && m.attempt == a)).length

/-- Mirrors `add_media`: insert one media row. -/
def add_media (db : DB) (c : Nat) (s : Int) (a : Nat) (file_type file_id file_unique_id : String)
    (tg_message_id : Nat) (meta_json now : String) : DB :=
  { db with
    media := db.media ++
      [⟨db.next_media_id, c, s, a, file_type, file_id, file_unique_id, tg_message_id, meta_json, now⟩],
    next_media_id := db.next_media_id + 1 }

/-- Mirrors `mark_submitted`: `UPDATE step_state SET submitted=1 WHERE ...` — note the
source sets only `submitted`; no timestamp column is written. -/
def mark_submitted (db : DB) (c : Nat) (s : Int) (a : Nat) : DB :=
  { db with step_state :=
      db.step_state.map (fun r => if stepKey c s a r then { r with submitted := true } else r) }

/-- Mirrors `set_review`: record the review decision with reviewer and timestamp. -/
def set_review (db : DB) (c : Nat) (s : Int) (a : Nat) (approved : Bool) (reviewer_id : Nat)
    (now : String) : DB :=
  { db with step_state :=
      db.step_state.map (fun r =>
        if stepKey c s a r then
          { r with approved := some approved, reviewed_by := some reviewer_id, reviewed_at := some now }
        else r) }

/-- Mirrors `set_reject_reason`: record the free-text reason with author and timestamp. -/
def set_reject_reason (db : DB) (c : Nat) (s : Int) (a : Nat) (reason : String)
    (reviewer_id : Nat) (now : String) : DB :=
  { db with step_state :=
      db.step_state.map (fun r =>
        if stepKey c s a r then
          { r with reject_reason := some reason, reject_reason_by := some reviewer_id,
                   reject_reason_at := some now }
        else r) }

/-- Mirrors `get_media_rows`: the attempt's media in `media_id` order (rowid order). -/
def get_media_rows (db : DB) (c : Nat) (s : Int) (a : Nat) : List MediaRow :=
  db.media.filter (fun m => m.case_id == c && m.step_no == s && m.attempt == a)

/-- Mirrors `delete_media_rows`: `DELETE FROM media WHERE case_id=? AND step_no=? AND attempt=?`. -/
def delete_media_rows (db : DB) (c : Nat) (s : Int) (a : Nat) : DB :=
  { db with media :=
      db.media.filter (fun m => !(m.case_id == c && m.step_no == s && m.attempt == a)) }

/-- Mirrors `save_auth_text`: insert one authorization-text row (positive step number). -/
def save_auth_text (db : DB) (c : Nat) (s : Int) (a : Nat) (text : String)
    (tg_message_id : Nat) (now : String) : DB :=
  { db with
    auth_text := db.auth_text ++ [⟨db.next_auth_id, c, s, a, text, tg_message_id, now⟩],
    next_auth_id := db.next_auth_id + 1 }

/-- Mirrors `set_pending_input`: delete any entry for (chat, user, kind), then insert
the new one — at most one outstanding request per key. -/
def set_pending_input (db : DB) (chat_id : Int) (user_id : Nat) (kind : String) (case_id : Nat)
    (step_no : Int) (attempt : Nat) (reply_to_message_id : Option Nat)
    (tech_user_id : Option Nat) (now : String) : DB :=
  let cleaned := db.pending_inputs.filter
    (fun p => !(p.chat_id == chat_id && p.user_id == user_id && p.kind == kind))
  { db with
    pending_inputs := cleaned ++
      [⟨db.next_pending_id, chat_id, user_id, kind, case_id, step_no, attempt, now,
        reply_to_message_id, tech_user_id⟩],
    next_pending_id := db.next_pending_id + 1 }

/-- Mirrors `pop_pending_input`: fetch the latest entry for (chat, user, kind) and
delete it by `pending_id`; `none` when absent. -/
def pop_pending_input (db : DB) (chat_id : Int) (user_id : Nat) (kind : String) :
    Option PendingInput × DB :=
  match maxByPendingId (db.pending_inputs.filter
      (fun p => p.chat_id == chat_id && p.user_id == user_id && p.kind == kind)) with
  | none => (none, db)
  | some row =>
    (some row,
     { db with pending_inputs := db.pending_inputs.filter (fun p => !(p.pending_id == row.pending_id)) })

/-- Observable outcome of a handler invocation: which reply/alert the source
sends and which side effects it requests from the transport. -/
inductive Out where
  | ignored
  | noOpenCase
  | invalidCase
  | notTechnician
  | notAdmin
  | notFound
  | alreadyReviewed
  | alreadyInReview
  | noMediaYet
  | capReached
  | saved (n : Nat)
  | sentForReview (n : Nat)
  | sentAuthReview (n : Nat)
  | authTextReview (attempt : Nat)
  | approvedNext (next : Int)
  | caseClosed (summaryDest : Option Int)
  | rejectedStep (deleteMsgIds : List Nat)
  | authApproved
  | askReason
  | authRejected (reason : String) (deleteMsgIds : List Nat)
  | needValidReason
  | emptyText
  | abonadoSaved (code : String)
  | cancelled
  deriving DecidableEq

/-- The portion of `on_media` after `ensure_step_state` returned `st`
(lines 1393–1455): the already-in-review guard, the cap guard, and the
insert + "Guardado (n/8)" acknowledgement. -/
def appendToAttempt (db : DB) (st : StepState) (file_type file_id file_unique_id : String)
    (tg_message_id : Nat) (meta_json now : String) : DB × Out :=
  if st.submitted then (db, .alreadyInReview)
  else
    let current := media_count db st.case_id st.step_no st.attempt
    if MAX_MEDIA_PER_STEP ≤ current then (db, .capReached)
    else
      (add_media db st.case_id st.step_no st.attempt file_type file_id file_unique_id
        tg_message_id meta_json now,
       .saved (current + 1))

/-- The `on_media` message handler (photo/video): resolve the technician's
open case, check phase and pending step range, ensure the active attempt,
then append. -/
def onMediaMsg (db : DB) (chat_id : Int) (user_id : Nat)
    (file_type file_id file_unique_id : String) (tg_message_id : Nat)
    (meta_json now : String) : DB × Out :=
  match get_open_case db chat_id user_id with
  | none => (db, .ignored)
  | some case_row =>
    let pending := case_row.pending_step_no.getD 0
    if case_row.phase ≠ "AUTH_MEDIA" ∧ case_row.phase ≠ "STEP_MEDIA" then (db, .ignored)
    else if pending < STEP_FIRST_MEDIA ∨ STEP_LAST_MEDIA < pending then (db, .ignored)
    else
      let store_step := if case_row.phase = "AUTH_MEDIA" then -pending else pending
      let es := ensure_step_state db case_row.case_id store_step now
      appendToAttempt es.2 es.1 file_type file_id file_unique_id tg_message_id meta_json now

/-- The submission portion shared by `MEDIA_DONE` and `AUTH_DONE` after
`ensure_step_state` returned `st`: the already-submitted guard, the
zero-media guard, and `mark_submitted`. The source writes no submission
timestamp (`mark_submitted` sets only `submitted=1`). -/
def submitAttempt (db : DB) (st : StepState) : DB × Out :=
  if st.submitted then (db, .alreadyInReview)
  else
    let count := media_count db st.case_id st.step_no st.attempt
    if count ≤ 0 then (db, .noMediaYet)
    else (mark_submitted db st.case_id st.step_no st.attempt, .sentForReview count)

/-- The `MEDIA_DONE` callback branch (lines 1034–1080). -/
def mediaDone (db : DB) (case_id : Nat) (step_no : Int) (user_id : Nat) (now : String) :
    DB × Out :=
  match get_case db case_id with
  | none => (db, .invalidCase)
  | some case_row =>
    if case_row.status ≠ "OPEN" then (db, .invalidCase)
    else if case_row.user_id ≠ user_id then (db, .notTechnician)
    else
      let es := ensure_step_state db case_id step_no now
      submitAttempt es.2 es.1

/-- The `AUTH_DONE` callback branch (lines 909–956): identical to
`MEDIA_DONE` but on the negated step number; on success the review request
is the authorization one. -/
def authDone (db : DB) (case_id : Nat) (step_no : Int) (user_id : Nat) (now : String) :
    DB × Out :=
  match get_case db case_id with
  | none => (db, .invalidCase)
  | some case_row =>
    if case_row.status ≠ "OPEN" then (db, .invalidCase)
    else if case_row.user_id ≠ user_id then (db, .notTechnician)
    else
      let es := ensure_step_state db case_id (-step_no) now
      match submitAttempt es.2 es.1 with
      | (db', .sentForReview n) => (db', .sentAuthReview n)
      | other => other

/-- The `REV_OK` / `REV_BAD` callback branch (lines 1083–1173). `ok` is true
for `REV_OK`. `is_admin` is the transport's administrator check and
`summaryDest` the `get_route_for_chat` summary destination, both passed in.
The double-review guard reads only `approved` — `submitted` is not checked. -/
def reviewStep (db : DB) (ok : Bool) (case_id : Nat) (step_no : Int) (attempt : Nat)
    (user_id : Nat) (is_admin : Bool) (summaryDest : Option Int) (now : String) : DB × Out :=
  if ¬is_admin then (db, .notAdmin)
  else
    match get_case db case_id with
    | none => (db, .invalidCase)
    | some case_row =>
      if case_row.status ≠ "OPEN" then (db, .invalidCase)
      else
        match find_step db case_id step_no attempt with
        | none => (db, .notFound)
        | some row =>
          if row.approved.isSome then (db, .alreadyReviewed)
          else if ok then
            let db1 := set_review db case_id step_no attempt true user_id now
            if STEP_LAST_MEDIA ≤ step_no then
              (update_case db1 case_id (fun r =>
                 { r with status := "CLOSED", phase := "CLOSED", finished_at := some now,
                          pending_step_no := none }),
               .caseClosed summaryDest)
            else
              (update_case db1 case_id (fun r =>
                 { r with phase := "AUTH_ASK", pending_step_no := some (step_no + 1) }),
               .approvedNext (step_no + 1))
          else
            let db1 := set_review db case_id step_no attempt false user_id now
            let media_rows := get_media_rows db1 case_id step_no attempt
            let db2 := delete_media_rows db1 case_id step_no attempt
            (update_case db2 case_id (fun r =>
               { r with phase := "STEP_MEDIA", pending_step_no := some step_no }),
             .rejectedStep (media_rows.map (fun m => m.tg_message_id)))

/-- The `AUT_OK` / `AUT_BAD` callback branch (lines 959–1027). `AUT_BAD` does
not record the rejection: it only registers the pending reason request;
the decision is written later by the `on_text` finalization. -/
def reviewAuth (db : DB) (ok : Bool) (case_id : Nat) (step_no : Int) (attempt : Nat)
    (chat_id : Int) (user_id : Nat) (is_admin : Bool) (review_msg_id : Nat) (now : String) :
    DB × Out :=
  if ¬is_admin then (db, .notAdmin)
  else
    match get_case db case_id with
    | none => (db, .invalidCase)
    | some case_row =>
      if case_row.status ≠ "OPEN" then (db, .invalidCase)
      else
        let auth_step_no := -step_no
        match find_step db case_id auth_step_no attempt with
        | none => (db, .notFound)
        | some row =>
          if row.approved.isSome then (db, .alreadyReviewed)
          else if ok then
            let db1 := set_review db case_id auth_step_no attempt true user_id now
            (update_case db1 case_id (fun r =>
               { r with phase := "STEP_MEDIA", pending_step_no := some step_no }),
             .authApproved)
          else
            (set_pending_input db chat_id user_id "AUTH_REJECT_REASON" case_id step_no attempt
               (some review_msg_id) (some case_row.user_id) now,
             .askReason)

/-- Python's `str.strip()` over the unpacked characters: drop leading and
trailing whitespace. (Implemented on the char list so it is
kernel-computable.) -/
def stripChars (l : List Char) : List Char :=
  ((l.dropWhile Char.isWhitespace).reverse.dropWhile Char.isWhitespace).reverse

/-- Python's `str.strip()` as used on every free-text input of the source. -/
def strip (s : String) : String :=
  ⟨stripChars s.data⟩

/-- The `on_text` message handler (lines 1181–1323): the pending
rejection-reason finalization, the `AUTH_TEXT_WAIT` authorization text, and
the step-3 subscriber code. The finalization deletes the attempt's media
rows from the store, but only the Telegram message of the auth text — the
`auth_text` row itself is never deleted. -/
def onTextMsg (db : DB) (chat_id : Int) (user_id : Nat) (text : String) (msg_id : Nat)
    (now : String) : DB × Out :=
  match pop_pending_input db chat_id user_id "AUTH_REJECT_REASON" with
  | (some p, db0) =>
    let reason := strip text
    if reason = "" then
      (set_pending_input db0 chat_id user_id "AUTH_REJECT_REASON" p.case_id p.step_no p.attempt
         p.reply_to_message_id p.tech_user_id now,
       .needValidReason)
    else
      match get_case db0 p.case_id with
      | none => (db0, .invalidCase)
      | some case_db =>
        if case_db.status ≠ "OPEN" then (db0, .invalidCase)
        else
          let auth_step_no := -p.step_no
          let db1 := set_review db0 p.case_id auth_step_no p.attempt false user_id now
          let db2 := set_reject_reason db1 p.case_id auth_step_no p.attempt reason user_id now
          let media_rows := get_media_rows db2 p.case_id auth_step_no p.attempt
          let db3 := if media_rows.isEmpty then db2
                     else delete_media_rows db2 p.case_id auth_step_no p.attempt
          let db4 := update_case db3 p.case_id (fun r =>
            { r with phase := "AUTH_ASK", pending_step_no := some p.step_no })
          (db4, .authRejected reason (media_rows.map (fun m => m.tg_message_id)))
  | (none, _) =>
    match get_open_case db chat_id user_id with
    | none => (db, .ignored)
    | some case_row =>
      if case_row.phase = "AUTH_TEXT_WAIT" then
        let step_no := case_row.pending_step_no.getD 0
        if step_no < STEP_FIRST_MEDIA ∨ STEP_LAST_MEDIA < step_no then (db, .ignored)
        else
          let t := strip text
          if t = "" then (db, .emptyText)
          else
            let auth_step_no := -step_no
            let es := ensure_step_state db case_row.case_id auth_step_no now
            let db2 := save_auth_text es.2 case_row.case_id step_no es.1.attempt t msg_id now
            let db3 := mark_submitted db2 case_row.case_id auth_step_no es.1.attempt
            (update_case db3 case_row.case_id (fun r =>
               { r with phase := "AUTH_REVIEW", pending_step_no := some step_no }),
             .authTextReview es.1.attempt)
      else if case_row.step_index ≠ 2 then (db, .ignored)
      else
        let t := strip text
        if t = "" then (db, .emptyText)
        else
          (update_case db case_row.case_id (fun r =>
             { r with abonado_code := some t, step_index := 3, phase := "WAIT_LOCATION" }),
           .abonadoSaved t)

/-- The `/cancelar` command: cancel the caller's open case. -/
def cancelCase (db : DB) (chat_id : Int) (user_id : Nat) (now : String) : DB × Out :=
  match get_open_case db chat_id user_id with
  | none => (db, .noOpenCase)
  | some case_row =>
    (update_case db case_row.case_id (fun r =>
       { r with status := "CANCELLED", phase := "CANCELLED", finished_at := some now }),
     .cancelled)

/-- The `on_location` message handler: record the location and enter the
authorization question for step 5. -/
def onLocation (db : DB) (chat_id : Int) (user_id : Nat) (lat lon : String) (now : String) :
    DB × Out :=
  match get_open_case db chat_id user_id with
  | none => (db, .ignored)
  | some case_row =>
    if case_row.step_index ≠ 3 then (db, .ignored)
    else
      (update_case db case_row.case_id (fun r =>
         { r with location_lat := some lat, location_lon := some lon, location_at := some now,
                  step_index := 4, phase := "AUTH_ASK", pending_step_no := some 5 }),
       .ignored)

/-- The standalone double-review guard of the `REV_OK`/`REV_BAD` (and
`AUT_OK`/`AUT_BAD`) branches, as the source executes it: one read-only
connection that fetches `approved` and passes when the row exists with
`approved IS NULL`. The subsequent `set_review` runs in a separate
connection, so another actor's write can interleave between the two. -/
def reviewGuardPasses (db : DB) (c : Nat) (s : Int) (a : Nat) : Bool :=
  match find_step db c s a with
  | none => false
  | some row => !row.approved.isSome

-- ===== generic list lemmas =====

theorem foldr_max_append (l : List Nat) (a : Nat) :
    (l ++ [a]).foldr max 0 = max (l.foldr max 0) a := by
  induction l with
  | nil => simp
  | cons x xs ih => simp [ih]; omega

theorem foldr_max_range' (n : Nat) : (List.range' 1 n).foldr max 0 = n := by
  induction n with
  | zero => simp
  | succ k ih =>
      rw [List.range'_concat, foldr_max_append, ih]
      omega

theorem filter_map_fix {α : Type} (l : List α) (f : α → α) (p : α → Bool)
    (h1 : ∀ r, p r = true → f r = r) (h2 : ∀ r, p (f r) = p r) :
    (l.map f).filter p = l.filter p := by
  induction l with
  | nil => rfl
  | cons x xs ih =>
      simp only [List.map_cons, List.filter_cons]
      rw [h2 x]
      cases hx : p x with
      | false => simpa [hx] using ih
      | true => rw [h1 x hx]; simpa [hx] using ih

theorem filter_filter_drop {α : Type} (l : List α) (p q : α → Bool)
    (h : ∀ r, p r = true → q r = true) :
    (l.filter q).filter p = l.filter p := by
  induction l with
  | nil => rfl
  | cons x xs ih =>
      simp only [List.filter_cons]
      cases hq : q x with
      | true => simp only [if_pos trivial, List.filter_cons, ih]
      | false =>
          cases hp : p x with
          | false => simpa [hp] using ih
          | true => exact absurd (h x hp) (by simp [hq])

theorem filter_append_not {α : Type} (l : List α) (a : α) (p : α → Bool) (h : p a = false) :
    (l ++ [a]).filter p = l.filter p := by
  simp [List.filter_append, h]

theorem find?_map_pred {α : Type} (l : List α) (f : α → α) (p : α → Bool)
    (hp : ∀ r, p (f r) = p r) :
    (l.map f).find? p = (l.find? p).map f := by
  induction l with
  | nil => rfl
  | cons x xs ih =>
      simp only [List.map_cons, List.find?]
      rw [hp x]
      cases p x <;> simp [ih]

theorem filter_map_comm {α : Type} (l : List α) (f : α → α) (p : α → Bool)
    (hp : ∀ r, p (f r) = p r) :
    (l.map f).filter p = (l.filter p).map f := by
  induction l with
  | nil => rfl
  | cons x xs ih =>
      simp only [List.map_cons, List.filter_cons]
      rw [hp x]
      cases p x <;> simp [ih]

theorem length_filter_map_le {α : Type} (l : List α) (f : α → α) (p : α → Bool)
    (h : ∀ r, p (f r) = true → p r = true) :
    ((l.map f).filter p).length ≤ (l.filter p).length := by
  induction l with
  | nil => simp
  | cons x xs ih =>
      simp only [List.map_cons, List.filter_cons]
      cases hfx : p (f x) with
      | true => rw [h x hfx]; simpa using ih
      | false =>
          cases hx : p x with
          | true => simp; omega
          | false => simpa using ih

theorem maxByAttempt_eq_none (l : List StepState) : maxByAttempt l = none ↔ l = [] := by
  cases l with
  | nil => simp [maxByAttempt]
  | cons x xs =>
      simp only [maxByAttempt]
      constructor
      · intro h
        cases hm : maxByAttempt xs with
        | none => rw [hm] at h; simp at h
        | some b =>
            rw [hm] at h
            dsimp only at h
            split at h <;> simp at h
      · intro h; exact absurd h (by simp)

theorem maxByCaseId_mem (l : List CaseRow) (r : CaseRow) (h : maxByCaseId l = some r) :
    r ∈ l := by
  induction l with
  | nil => simp [maxByCaseId] at h
  | cons x xs ih =>
      simp only [maxByCaseId] at h
      cases hm : maxByCaseId xs with
      | none => rw [hm] at h; simp at h; simp [h]
      | some b =>
          rw [hm] at h
          simp only at h
          split at h
          · simp at h; simp [h]
          · simp at h; right; exact ih (h ▸ hm)

theorem length_le_one_mem_eq {α : Type} (l : List α) (r : α) (hlen : l.length ≤ 1)
    (hmem : r ∈ l) : l = [r] := by
  cases l with
  | nil => simp at hmem
  | cons x xs =>
      cases xs with
      | nil => simp at hmem; simp [hmem]
      | cons y ys => simp at hlen

-- ===== concrete scenario states =====

/-- An open case of technician 7 in chat 100, collecting evidence for step 5. -/
def caseOpen : CaseRow :=
  ⟨1, 100, 7, "tech", "T0", none, "OPEN", 4, "STEP_MEDIA", some 5,
   some "FLORO FERNANDEZ VASQUEZ", some "ALTA NUEVA", some "AB1", none, none, none⟩

/-- Attempt 1 of step 5, submitted and awaiting review. -/
def attemptSubmitted : StepState :=
  ⟨1, 5, 1, true, none, none, none, "T0", none, none, none⟩

/-- Store holding the open case and the submitted, unreviewed attempt. -/
def raceDB : DB :=
  ⟨[caseOpen], [], [attemptSubmitted], [], [], [], 2, 1, 1, 1⟩

/-- C2: the claim requires the check-then-set on `approved` to resolve
concurrent reviewer actions with exactly one winner. In the source the guard
(`SELECT approved ...`) and the write (`set_review`) are two separate SQLite
connections, so the schedule check(A), check(B), write(A), write(B) is
possible: both guards pass on the same store, and B's `set_review` silently
overwrites A's committed approval with a rejection by reviewer 20. -/
theorem C2_review_race_overwrites :
    reviewGuardPasses raceDB 1 5 1 = true ∧
    reviewGuardPasses raceDB 1 5 1 = true ∧
    find_step (set_review (set_review raceDB 1 5 1 true 10 "T1") 1 5 1 false 20 "T2") 1 5 1
      = some ⟨1, 5, 1, true, some false, some 20, some "T2", "T0", none, none, none⟩ := by
  decide

/-- Chat 100 configured with approval OFF, with the open case, the active
(unsubmitted) attempt of step 5 and one stored evidence item. -/
def approvalOffDB : DB :=
  ⟨[caseOpen], [⟨100, false, some "T0"⟩],
   [⟨1, 5, 1, false, none, none, none, "T0", none, none, none⟩],
   [⟨1, 1, 5, 1, "photo", "f1", "u1", 41, "meta", "T0"⟩], [], [], 2, 2, 1, 1⟩

/-- C9: reading the flag of an unconfigured chat yields `true` (approval
required — the default), but the flag is never consulted by the submission
flow: with approval OFF, `MEDIA_DONE` still only marks the attempt submitted
and emits the admin review request; `approved` stays unset and the case does
not advance (phase still STEP_MEDIA) until a reviewer acts. -/
theorem C9_approval_flag_not_consulted :
    (get_approval_required emptyDB 100 "T0").1 = true ∧
    (get_approval_required approvalOffDB 100 "T1").1 = false ∧
    (mediaDone approvalOffDB 1 5 7 "T1").2 = Out.sentForReview 1 ∧
    (find_step (mediaDone approvalOffDB 1 5 7 "T1").1 1 5 1)
      = some ⟨1, 5, 1, true, none, none, none, "T0", none, none, none⟩ ∧
    (get_case (mediaDone approvalOffDB 1 5 7 "T1").1 1).map (fun r => r.phase)
      = some "STEP_MEDIA" := by
  decide

-- ===== point-lookup lemmas for the store updaters =====

theorem stepKey_of_update (c : Nat) (s : Int) (a : Nat) (f : StepState → StepState)
    (h1 : ∀ r, (f r).case_id = r.case_id) (h2 : ∀ r, (f r).step_no = r.step_no)
    (h3 : ∀ r, (f r).attempt = r.attempt) (r : StepState) :
    stepKey c s a (f r) = stepKey c s a r := by
  simp [stepKey, h1, h2, h3]

theorem find_step_map_update (db : DB) (c : Nat) (s : Int) (a : Nat) (f : StepState → StepState)
    (h1 : ∀ r, (f r).case_id = r.case_id) (h2 : ∀ r, (f r).step_no = r.step_no)
    (h3 : ∀ r, (f r).attempt = r.attempt) :
    find_step { db with step_state := db.step_state.map (fun r => if stepKey c s a r then f r else r) } c s a
      = (find_step db c s a).map f := by
  show (db.step_state.map _).find? _ = _
  rw [find?_map_pred]
  · cases hf : db.step_state.find? (stepKey c s a) with
    | none => simp [find_step, hf]
    | some r =>
        have hk : stepKey c s a r = true := List.find?_some hf
        simp [find_step, hf, hk]
  · intro r
    by_cases hr : stepKey c s a r = true
    · simp [hr, stepKey_of_update c s a f h1 h2 h3]
    · simp [hr]

theorem find_step_mark_submitted (db : DB) (c : Nat) (s : Int) (a : Nat) :
    find_step (mark_submitted db c s a) c s a
      = (find_step db c s a).map (fun r => { r with submitted := true }) :=
  find_step_map_update db c s a _ (fun _ => rfl) (fun _ => rfl) (fun _ => rfl)

theorem find_step_set_review (db : DB) (c : Nat) (s : Int) (a : Nat) (b : Bool) (u : Nat)
    (t : String) :
    find_step (set_review db c s a b u t) c s a
      = (find_step db c s a).map
          (fun r => { r with approved := some b, reviewed_by := some u, reviewed_at := some t }) :=
  find_step_map_update db c s a _ (fun _ => rfl) (fun _ => rfl) (fun _ => rfl)

theorem find_step_set_reject_reason (db : DB) (c : Nat) (s : Int) (a : Nat) (reason : String)
    (u : Nat) (t : String) :
    find_step (set_reject_reason db c s a reason u t) c s a
      = (find_step db c s a).map
          (fun r => { r with reject_reason := some reason, reject_reason_by := some u,
                             reject_reason_at := some t }) :=
  find_step_map_update db c s a _ (fun _ => rfl) (fun _ => rfl) (fun _ => rfl)

theorem find_step_update_case (db : DB) (cid : Nat) (f : CaseRow → CaseRow) (c : Nat) (s : Int)
    (a : Nat) : find_step (update_case db cid f) c s a = find_step db c s a := rfl

theorem find_step_delete_media (db : DB) (c0 : Nat) (s0 : Int) (a0 : Nat) (c : Nat) (s : Int)
    (a : Nat) : find_step (delete_media_rows db c0 s0 a0) c s a = find_step db c s a := rfl

theorem media_count_add_media (db : DB) (c : Nat) (s : Int) (a : Nat)
    (ft fid fuid : String) (mid : Nat) (mj now : String) :
    media_count (add_media db c s a ft fid fuid mid mj now) c s a = media_count db c s a + 1 := by
  simp [media_count, add_media, List.filter_append]

/-- C5: for any attempt row `st`, the media-append operation of `on_media`
rejects (store unchanged) when the attempt is already submitted; rejects when
the attempt's ledger count has reached the cap `MAX_MEDIA_PER_STEP = 8`, the
count then staying exactly 8; and otherwise appends the item and reports the
new count `old + 1`. -/
theorem C5_append_media_guards (db : DB) (st : StepState) (ft fid fuid : String)
    (mid : Nat) (mj now : String) :
    (st.submitted = true →
       appendToAttempt db st ft fid fuid mid mj now = (db, Out.alreadyInReview)) ∧
    (st.submitted = false → MAX_MEDIA_PER_STEP ≤ media_count db st.case_id st.step_no st.attempt →
       appendToAttempt db st ft fid fuid mid mj now = (db, Out.capReached)) ∧
    (st.submitted = false → media_count db st.case_id st.step_no st.attempt = MAX_MEDIA_PER_STEP →
       media_count (appendToAttempt db st ft fid fuid mid mj now).1 st.case_id st.step_no st.attempt
         = MAX_MEDIA_PER_STEP) ∧
    (st.submitted = false → media_count db st.case_id st.step_no st.attempt < MAX_MEDIA_PER_STEP →
       (appendToAttempt db st ft fid fuid mid mj now).2
           = Out.saved (media_count db st.case_id st.step_no st.attempt + 1) ∧
       media_count (appendToAttempt db st ft fid fuid mid mj now).1 st.case_id st.step_no st.attempt
         = media_count db st.case_id st.step_no st.attempt + 1) := by
  refine ⟨fun hs => by simp [appendToAttempt, hs], fun hs hcap => ?_, fun hs hcap => ?_,
          fun hs hlt => ?_⟩
  · simp [appendToAttempt, hs, hcap]
  · simp [appendToAttempt, hs, hcap]
  · have hnle : ¬ MAX_MEDIA_PER_STEP ≤ media_count db st.case_id st.step_no st.attempt :=
      Nat.not_le.mpr hlt
    constructor
    · simp [appendToAttempt, hs, hnle]
    · simp [appendToAttempt, hs, hnle, media_count_add_media]

/-- Witness for C5 at a concrete store: the active attempt of step 5 holds one
item, the append succeeds and reports count 2. -/
theorem C5_append_media_guards_witness :
    (⟨1, 5, 1, false, none, none, none, "T0", none, none, none⟩ : StepState).submitted = false ∧
    media_count approvalOffDB 1 5 1 < MAX_MEDIA_PER_STEP ∧
    (appendToAttempt approvalOffDB ⟨1, 5, 1, false, none, none, none, "T0", none, none, none⟩
        "photo" "f2" "u2" 42 "m" "T1").2 = Out.saved 2 :=
  ⟨rfl, by decide,
   ((C5_append_media_guards approvalOffDB
       ⟨1, 5, 1, false, none, none, none, "T0", none, none, none⟩
       "photo" "f2" "u2" 42 "m" "T1").2.2.2 rfl (by decide)).1⟩

/-- C6 counterexample: the claim says a successful submit "records a
submission timestamp on the attempt". Submitting the active one-item attempt
of step 5 succeeds, but the resulting store is exactly the old one with only
`submitted` flipped to true: every other field of the row (including every
timestamp field) is unchanged, and `mark_submitted` takes no clock input at
all — no submission timestamp exists anywhere in the store. -/
theorem C6_counterexample :
    submitAttempt approvalOffDB ⟨1, 5, 1, false, none, none, none, "T0", none, none, none⟩
      = ({ approvalOffDB with
            step_state := [⟨1, 5, 1, true, none, none, none, "T0", none, none, none⟩] },
         Out.sentForReview 1) := by
  decide

/-- C6 (amended): submit fails (store unchanged) when the attempt is already
submitted, fails when its media count is zero, and otherwise sets
`submitted := true` on the attempt row — and nothing else: no submission
timestamp is recorded. -/
theorem C6_submit_amended (db : DB) (st : StepState) (r : StepState) :
    (st.submitted = true → submitAttempt db st = (db, Out.alreadyInReview)) ∧
    (st.submitted = false → media_count db st.case_id st.step_no st.attempt = 0 →
       submitAttempt db st = (db, Out.noMediaYet)) ∧
    (st.submitted = false → 0 < media_count db st.case_id st.step_no st.attempt →
       (submitAttempt db st).2
           = Out.sentForReview (media_count db st.case_id st.step_no st.attempt) ∧
       (find_step db st.case_id st.step_no st.attempt = some r →
         find_step (submitAttempt db st).1 st.case_id st.step_no st.attempt
           = some { r with submitted := true })) := by
  refine ⟨fun hs => by simp [submitAttempt, hs], fun hs hc => by simp [submitAttempt, hs, hc],
          fun hs hc => ?_⟩
  have hnz : ¬ media_count db st.case_id st.step_no st.attempt ≤ 0 := by omega
  constructor
  · simp [submitAttempt, hs, hnz]
  · intro hf
    simp [submitAttempt, hs, hnz, find_step_mark_submitted, hf]

/-- Witness for C6's amended theorem: submitting the concrete one-item
attempt flips exactly `submitted`. -/
theorem C6_submit_amended_witness :
    (⟨1, 5, 1, false, none, none, none, "T0", none, none, none⟩ : StepState).submitted = false ∧
    0 < media_count approvalOffDB 1 5 1 ∧
    find_step (submitAttempt approvalOffDB
        ⟨1, 5, 1, false, none, none, none, "T0", none, none, none⟩).1 1 5 1
      = some ⟨1, 5, 1, true, none, none, none, "T0", none, none, none⟩ :=
  ⟨rfl, by decide,
   ((C6_submit_amended approvalOffDB ⟨1, 5, 1, false, none, none, none, "T0", none, none, none⟩
       ⟨1, 5, 1, false, none, none, none, "T0", none, none, none⟩).2.2 rfl (by decide)).2
     (by decide)⟩

/-- Store with an attempt of step 5 that is NOT yet submitted (and unreviewed),
inside the open case. -/
def unsubmittedDB : DB :=
  ⟨[caseOpen], [], [⟨1, 5, 1, false, none, none, none, "T0", none, none, none⟩],
   [], [], [], 2, 1, 1, 1⟩

/-- C1 counterexample: the claim says approve succeeds only when
`submitted = true AND approved = unset` and otherwise fails with a
StateConflict ("not yet submitted"). On an attempt with `submitted = false`
and `approved` unset, the admin's approve nevertheless succeeds — the
handler's guard reads only `approved`; no "not yet submitted" conflict
exists anywhere in the source. -/
theorem C1_counterexample :
    (find_step unsubmittedDB 1 5 1).map (fun r => r.submitted) = some false ∧
    (reviewStep unsubmittedDB true 1 5 1 99 true none "T1").2 = Out.approvedNext 6 ∧
    (find_step (reviewStep unsubmittedDB true 1 5 1 99 true none "T1").1 1 5 1).map
        (fun r => r.approved) = some (some true) := by
  decide

/-- C1 (amended): for an admin acting on an existing attempt of an OPEN case,
approve and reject succeed exactly when `approved` is unset — `submitted` is
not checked, so even an unsubmitted attempt can be reviewed; when `approved`
is already set, both fail with the "already reviewed" conflict and leave the
store unchanged; on success the decision, reviewer and timestamp are set, so
`approved` still transitions at most once from unset to a terminal value. -/
theorem C1_review_guard_amended (db : DB) (cid : Nat) (s : Int) (a : Nat) (u : Nat)
    (dest : Option Int) (now : String) (cr : CaseRow) (row : StepState)
    (hc : get_case db cid = some cr) (ho : cr.status = "OPEN")
    (hf : find_step db cid s a = some row) :
    (∀ ok, row.approved.isSome →
       reviewStep db ok cid s a u true dest now = (db, Out.alreadyReviewed)) ∧
    (row.approved = none →
       find_step (reviewStep db true cid s a u true dest now).1 cid s a
         = some { row with approved := some true, reviewed_by := some u,
                           reviewed_at := some now }) ∧
    (row.approved = none →
       find_step (reviewStep db false cid s a u true dest now).1 cid s a
         = some { row with approved := some false, reviewed_by := some u,
                           reviewed_at := some now }) := by
  refine ⟨fun ok hap => ?_, fun hap => ?_, fun hap => ?_⟩
  · simp [reviewStep, hc, ho, hf, hap]
  · have hap' : row.approved.isSome = false := by simp [hap]
    by_cases hlast : STEP_LAST_MEDIA ≤ s
    · simp [reviewStep, hc, ho, hf, hap', hlast, find_step_update_case, find_step_set_review]
    · simp [reviewStep, hc, ho, hf, hap', hlast, find_step_update_case, find_step_set_review]
  · have hap' : row.approved.isSome = false := by simp [hap]
    simp [reviewStep, hc, ho, hf, hap', find_step_update_case, find_step_delete_media,
          find_step_set_review]

/-- Witness for C1's amended theorem: approving the submitted, unreviewed
attempt of `raceDB` records approval by reviewer 10 at time T1. -/
theorem C1_review_guard_amended_witness :
    get_case raceDB 1 = some caseOpen ∧ caseOpen.status = "OPEN" ∧
    find_step raceDB 1 5 1 = some attemptSubmitted ∧
    find_step (reviewStep raceDB true 1 5 1 10 true none "T1").1 1 5 1
      = some ⟨1, 5, 1, true, some true, some 10, some "T1", "T0", none, none, none⟩ :=
  ⟨by decide, rfl, by decide,
   (C1_review_guard_amended raceDB 1 5 1 10 none "T1" caseOpen attemptSubmitted
      (by decide) rfl (by decide)).2.1 rfl⟩

/-- C10: rejecting an evidence attempt records only the decision triple on the
attempt row — `approved := false`, the reviewer and the review timestamp —
and keeps the rejection-reason columns exactly as they were (unset stays
unset); it registers no pending reason request (the pending-input table is
untouched) and touches no authorization text. Only the authorization
rejection flow captures a reason. -/
theorem C10_reject_records_no_reason (db : DB) (cid : Nat) (s : Int) (a : Nat) (u : Nat)
    (dest : Option Int) (now : String) (cr : CaseRow) (row : StepState)
    (hc : get_case db cid = some cr) (ho : cr.status = "OPEN")
    (hf : find_step db cid s a = some row) (hap : row.approved = none) :
    find_step (reviewStep db false cid s a u true dest now).1 cid s a
      = some { row with approved := some false, reviewed_by := some u,
                        reviewed_at := some now } ∧
    (find_step (reviewStep db false cid s a u true dest now).1 cid s a).map
        (fun r => (r.reject_reason, r.reject_reason_by, r.reject_reason_at))
      = some (row.reject_reason, row.reject_reason_by, row.reject_reason_at) ∧
    (reviewStep db false cid s a u true dest now).1.pending_inputs = db.pending_inputs ∧
    (reviewStep db false cid s a u true dest now).1.auth_text = db.auth_text := by
  have hap' : row.approved.isSome = false := by simp [hap]
  refine ⟨?_, ?_, ?_, ?_⟩
  · simp [reviewStep, hc, ho, hf, hap', find_step_update_case, find_step_delete_media,
          find_step_set_review]
  · simp [reviewStep, hc, ho, hf, hap', find_step_update_case, find_step_delete_media,
          find_step_set_review]
  · simp [reviewStep, hc, ho, hf, hap', update_case, delete_media_rows, set_review]
  · simp [reviewStep, hc, ho, hf, hap', update_case, delete_media_rows, set_review]

/-- Witness for C10 at the concrete race store. -/
theorem C10_reject_records_no_reason_witness :
    get_case raceDB 1 = some caseOpen ∧ caseOpen.status = "OPEN" ∧
    find_step raceDB 1 5 1 = some attemptSubmitted ∧ attemptSubmitted.approved = none ∧
    (reviewStep raceDB false 1 5 1 10 true none "T1").1.pending_inputs = raceDB.pending_inputs :=
  ⟨by decide, rfl, by decide, rfl,
   (C10_reject_records_no_reason raceDB 1 5 1 10 none "T1" caseOpen attemptSubmitted
      (by decide) rfl (by decide) rfl).2.2.1⟩

theorem get_media_rows_delete (db : DB) (c : Nat) (s : Int) (a : Nat) :
    get_media_rows (delete_media_rows db c s a) c s a = [] := by
  unfold get_media_rows delete_media_rows
  rw [List.filter_filter]
  refine List.filter_eq_nil_iff.mpr (fun m _ => ?_)
  cases h : (m.case_id == c && m.step_no == s && m.attempt == a) <;> simp [h]

theorem media_count_delete_le (db : DB) (c0 : Nat) (s0 : Int) (a0 : Nat) (c : Nat) (s : Int)
    (a : Nat) : media_count (delete_media_rows db c0 s0 a0) c s a ≤ media_count db c s a := by
  unfold media_count delete_media_rows
  exact ((List.filter_sublist _).filter _).length_le

theorem get_case_update_case (db : DB) (cid : Nat) (f : CaseRow → CaseRow)
    (hf : ∀ r, (f r).case_id = r.case_id) :
    get_case (update_case db cid f) cid = (get_case db cid).map f := by
  show (db.cases.map _).find? _ = _
  rw [find?_map_pred]
  · cases hg : db.cases.find? (fun r => r.case_id == cid) with
    | none => simp [get_case, hg]
    | some r =>
        have hk := List.find?_some hg
        unfold get_case
        rw [hg]
        show some (if r.case_id == cid then f r else r) = some (f r)
        rw [if_pos hk]
  · intro r
    by_cases hr : (r.case_id == cid) = true
    · simp [hr, hf]
    · simp [hr]

theorem pair_filter_map (l : List StepState) (g : StepState → StepState)
    (h1 : ∀ r, (g r).case_id = r.case_id) (h2 : ∀ r, (g r).step_no = r.step_no)
    (c : Nat) (s : Int) :
    (l.map g).filter (fun r => r.case_id == c && r.step_no == s)
      = (l.filter (fun r => r.case_id == c && r.step_no == s)).map g :=
  filter_map_comm l g _ (fun r => by simp [h1, h2])

theorem attempts_of_map (l : List StepState) (g : StepState → StepState)
    (h1 : ∀ r, (g r).case_id = r.case_id) (h2 : ∀ r, (g r).step_no = r.step_no)
    (h3 : ∀ r, (g r).attempt = r.attempt) (c : Nat) (s : Int) :
    ((l.map g).filter (fun r => r.case_id == c && r.step_no == s)).map (fun r => r.attempt)
      = (l.filter (fun r => r.case_id == c && r.step_no == s)).map (fun r => r.attempt) := by
  rw [pair_filter_map l g h1 h2, List.map_map]
  exact List.map_congr_left (fun r _ => h3 r)

theorem unsubmitted_filter_map (l : List StepState) (g : StepState → StepState)
    (h1 : ∀ r, (g r).case_id = r.case_id) (h2 : ∀ r, (g r).step_no = r.step_no)
    (h4 : ∀ r, (g r).submitted = r.submitted) (c : Nat) (s : Int) :
    (l.map g).filter (fun r => r.case_id == c && r.step_no == s && !r.submitted)
      = (l.filter (fun r => r.case_id == c && r.step_no == s && !r.submitted)).map g :=
  filter_map_comm l g _ (fun r => by simp [h1, h2, h4])

/-- Two evidence items stored for the submitted attempt of step 5. -/
def rejectDB : DB :=
  ⟨[caseOpen], [], [attemptSubmitted],
   [⟨1, 1, 5, 1, "photo", "f1", "u1", 41, "meta", "T0"⟩,
    ⟨2, 1, 5, 1, "photo", "f2", "u2", 42, "meta", "T0"⟩],
   [], [], 2, 3, 1, 1⟩

/-- C3 counterexample: the claim says rejecting creates a new, empty,
unsubmitted attempt for (case, step) via `ensureActiveAttempt`. After the
reject handler runs on the submitted attempt, the store holds NO unsubmitted
attempt for (case 1, step 5) at all — the handler never calls
`ensure_step_state`; the fresh attempt only appears later. -/
theorem C3_counterexample :
    (reviewStep rejectDB false 1 5 1 10 true none "T1").2 = Out.rejectedStep [41, 42] ∧
    ((reviewStep rejectDB false 1 5 1 10 true none "T1").1.step_state.filter
        (fun r => r.case_id == 1 && r.step_no == 5 && !r.submitted)) = [] := by
  decide

/-- C3 (amended): rejecting the submitted, unreviewed attempt sets
`approved := false`, deletes every media item of that attempt from the
ledger, and returns the case phase to STEP_MEDIA for the same step; no new
attempt is created by the rejection itself — the next `ensure_step_state`
call (the next media append) creates the fresh attempt, numbered one past
the maximum, unsubmitted, approval unset and with zero media. -/
theorem C3_reject_then_lazy_retry (db : DB) (cid : Nat) (s : Int) (a : Nat) (u : Nat)
    (dest : Option Int) (now t2 : String) (cr : CaseRow) (row : StepState)
    (hc : get_case db cid = some cr) (ho : cr.status = "OPEN")
    (hf : find_step db cid s a = some row) (hap : row.approved = none)
    (hno : db.step_state.filter (fun r => r.case_id == cid && r.step_no == s && !r.submitted)
             = [])
    (hm2 : media_count db cid s (_max_attempt db cid s + 1) = 0) :
    find_step (reviewStep db false cid s a u true dest now).1 cid s a
      = some { row with approved := some false, reviewed_by := some u,
                        reviewed_at := some now } ∧
    get_media_rows (reviewStep db false cid s a u true dest now).1 cid s a = [] ∧
    get_case (reviewStep db false cid s a u true dest now).1 cid
      = some { cr with phase := "STEP_MEDIA", pending_step_no := some s } ∧
    ((reviewStep db false cid s a u true dest now).1.step_state.filter
        (fun r => r.case_id == cid && r.step_no == s && !r.submitted)) = [] ∧
    (ensure_step_state (reviewStep db false cid s a u true dest now).1 cid s t2).1
      = ⟨cid, s, _max_attempt db cid s + 1, false, none, none, none, t2, none, none, none⟩ ∧
    media_count (ensure_step_state (reviewStep db false cid s a u true dest now).1 cid s t2).2
        cid s (_max_attempt db cid s + 1) = 0 := by
  have hap' : row.approved.isSome = false := by simp [hap]
  have hred : reviewStep db false cid s a u true dest now
      = (update_case (delete_media_rows (set_review db cid s a false u now) cid s a) cid
           (fun r => { r with phase := "STEP_MEDIA", pending_step_no := some s }),
         Out.rejectedStep ((get_media_rows (set_review db cid s a false u now) cid s a).map
           (fun m => m.tg_message_id))) := by
    simp [reviewStep, hc, ho, hf, hap']
  have h1 : (reviewStep db false cid s a u true dest now).1
      = update_case (delete_media_rows (set_review db cid s a false u now) cid s a) cid
          (fun r => { r with phase := "STEP_MEDIA", pending_step_no := some s }) :=
    congrArg Prod.fst hred
  have hstep' : (reviewStep db false cid s a u true dest now).1.step_state
      = db.step_state.map (fun r =>
          if stepKey cid s a r then
            { r with approved := some false, reviewed_by := some u, reviewed_at := some now }
          else r) := by
    rw [h1]; rfl
  have hmedia' : (reviewStep db false cid s a u true dest now).1.media
      = (delete_media_rows (set_review db cid s a false u now) cid s a).media := by
    rw [h1]; rfl
  have hkp1 : ∀ r : StepState, ((if stepKey cid s a r then
      { r with approved := some false, reviewed_by := some u, reviewed_at := some now }
      else r) : StepState).case_id = r.case_id := by
    intro r; by_cases h : stepKey cid s a r = true <;> simp [h]
  have hkp2 : ∀ r : StepState, ((if stepKey cid s a r then
      { r with approved := some false, reviewed_by := some u, reviewed_at := some now }
      else r) : StepState).step_no = r.step_no := by
    intro r; by_cases h : stepKey cid s a r = true <;> simp [h]
  have hkp3 : ∀ r : StepState, ((if stepKey cid s a r then
      { r with approved := some false, reviewed_by := some u, reviewed_at := some now }
      else r) : StepState).attempt = r.attempt := by
    intro r; by_cases h : stepKey cid s a r = true <;> simp [h]
  have hkp4 : ∀ r : StepState, ((if stepKey cid s a r then
      { r with approved := some false, reviewed_by := some u, reviewed_at := some now }
      else r) : StepState).submitted = r.submitted := by
    intro r; by_cases h : stepKey cid s a r = true <;> simp [h]
  have hunsub : ((reviewStep db false cid s a u true dest now).1.step_state.filter
      (fun r => r.case_id == cid && r.step_no == s && !r.submitted)) = [] := by
    rw [hstep', unsubmitted_filter_map _ _ hkp1 hkp2 hkp4, hno]
    rfl
  have hmax : _max_attempt (reviewStep db false cid s a u true dest now).1 cid s
      = _max_attempt db cid s := by
    unfold _max_attempt
    rw [hstep', attempts_of_map _ _ hkp1 hkp2 hkp3]
  refine ⟨?_, ?_, ?_, hunsub, ?_, ?_⟩
  · rw [h1, find_step_update_case, find_step_delete_media, find_step_set_review, hf]
    rfl
  · rw [h1]
    have h2 : get_media_rows (update_case (delete_media_rows (set_review db cid s a false u now)
        cid s a) cid (fun r => { r with phase := "STEP_MEDIA", pending_step_no := some s }))
        cid s a
        = get_media_rows (delete_media_rows (set_review db cid s a false u now) cid s a)
            cid s a := rfl
    rw [h2, get_media_rows_delete]
  · rw [h1, get_case_update_case (delete_media_rows (set_review db cid s a false u now) cid s a)
          cid (fun r => { r with phase := "STEP_MEDIA", pending_step_no := some s })
          (fun r => rfl)]
    have h3 : get_case (delete_media_rows (set_review db cid s a false u now) cid s a) cid
        = get_case db cid := rfl
    rw [h3, hc]
    rfl
  · unfold ensure_step_state
    rw [hunsub]
    simp [maxByAttempt, hmax]
  · have hens : (ensure_step_state (reviewStep db false cid s a u true dest now).1 cid s t2).2
        = { (reviewStep db false cid s a u true dest now).1 with
            step_state := (reviewStep db false cid s a u true dest now).1.step_state ++
              [⟨cid, s, _max_attempt (reviewStep db false cid s a u true dest now).1 cid s + 1,
                false, none, none, none, t2, none, none, none⟩] } := by
      unfold ensure_step_state
      rw [hunsub]
      rfl
    rw [hens]
    have hmc : media_count { (reviewStep db false cid s a u true dest now).1 with
          step_state := (reviewStep db false cid s a u true dest now).1.step_state ++
            [⟨cid, s, _max_attempt (reviewStep db false cid s a u true dest now).1 cid s + 1,
              false, none, none, none, t2, none, none, none⟩] } cid s
          (_max_attempt db cid s + 1)
        = media_count (reviewStep db false cid s a u true dest now).1 cid s
            (_max_attempt db cid s + 1) := rfl
    rw [hmc]
    have heq : media_count (reviewStep db false cid s a u true dest now).1 cid s
        (_max_attempt db cid s + 1)
        = media_count (delete_media_rows (set_review db cid s a false u now) cid s a) cid s
            (_max_attempt db cid s + 1) := by
      unfold media_count
      rw [hmedia']
    rw [heq]
    have hle := media_count_delete_le (set_review db cid s a false u now) cid s a cid s
      (_max_attempt db cid s + 1)
    have hsr : media_count (set_review db cid s a false u now) cid s (_max_attempt db cid s + 1)
        = media_count db cid s (_max_attempt db cid s + 1) := rfl
    omega


/-- Witness for C3's amended theorem at the concrete two-item store: the
lazily created retry attempt is number 2, unsubmitted, approval unset. -/
theorem C3_reject_then_lazy_retry_witness :
    get_case rejectDB 1 = some caseOpen ∧ attemptSubmitted.approved = none ∧
    (ensure_step_state (reviewStep rejectDB false 1 5 1 10 true none "T1").1 1 5 "T2").1
      = ⟨1, 5, 2, false, none, none, none, "T2", none, none, none⟩ :=
  ⟨by decide, rfl,
   (C3_reject_then_lazy_retry rejectDB 1 5 1 10 none "T1" "T2" caseOpen attemptSubmitted
      (by decide) rfl (by decide) rfl (by decide) (by decide)).2.2.2.2.1⟩

theorem pop_pending_projections (db : DB) (chat : Int) (u : Nat) (k : String) :
    (pop_pending_input db chat u k).2.step_state = db.step_state ∧
    (pop_pending_input db chat u k).2.media = db.media ∧
    (pop_pending_input db chat u k).2.auth_text = db.auth_text ∧
    (pop_pending_input db chat u k).2.cases = db.cases := by
  unfold pop_pending_input
  cases maxByPendingId (db.pending_inputs.filter
      (fun p => p.chat_id == chat && p.user_id == u && p.kind == k)) with
  | none => exact ⟨rfl, rfl, rfl, rfl⟩
  | some row => exact ⟨rfl, rfl, rfl, rfl⟩

/-- Open case at the authorization-review phase for step 5, with a submitted
unreviewed auth attempt (step −5), an authorization text in the store, and
admin 9 holding the pending rejection-reason request. -/
def caseAuth : CaseRow :=
  ⟨1, 100, 7, "tech", "T0", none, "OPEN", 4, "AUTH_REVIEW", some 5,
   some "FLORO FERNANDEZ VASQUEZ", some "ALTA NUEVA", some "AB1", none, none, none⟩

def caseAuthDB : DB :=
  ⟨[caseAuth], [], [⟨1, -5, 1, true, none, none, none, "T0", none, none, none⟩], [],
   [⟨1, 1, 5, 1, "justification", 60, "T0"⟩],
   [⟨1, 100, 9, "AUTH_REJECT_REASON", 1, 5, 1, "T0", some 50, some 7⟩], 2, 1, 2, 2⟩

/-- C8 counterexample: the claim says that at finalization "every media item
and authorization text belonging to that attempt is deleted from the store".
Finalizing the rejection of the text-authorization attempt (admin 9 supplies
the non-empty reason) completes — yet the `auth_text` row of the attempt is
still in the store afterwards: the source deletes only the Telegram message
of the text, never the `auth_text` row. -/
theorem C8_counterexample :
    (onTextMsg caseAuthDB 100 9 "motivo" 77 "T2").2 = Out.authRejected "motivo" [] ∧
    (onTextMsg caseAuthDB 100 9 "motivo" 77 "T2").1.auth_text
      = [⟨1, 1, 5, 1, "justification", 60, "T0"⟩] := by
  decide

/-- C8 (amended): an authorization rejection is finalized only after a
non-empty reason arrives through the pending-input registry: the `AUT_BAD`
button itself only registers the pending request (no decision is written);
an empty text re-arms the request and records nothing; a non-empty text
finalizes — `approved := false` with the reason, author and timestamp on the
attempt, the attempt's media rows are deleted from the store, and the case
phase returns to AUTH_ASK for the same step. The `auth_text` rows of the
attempt are NOT deleted from the store (only their chat messages are). -/
theorem C8_auth_reject_flow (db : DB) (chat : Int) (u : Nat) (text : String) (mid : Nat)
    (now : String) :
    (∀ (cid : Nat) (s : Int) (a : Nat) (cr : CaseRow) (row : StepState) (rmid : Nat),
       get_case db cid = some cr → cr.status = "OPEN" →
       find_step db cid (-s) a = some row → row.approved = none →
       reviewAuth db false cid s a chat u true rmid now
         = (set_pending_input db chat u "AUTH_REJECT_REASON" cid s a (some rmid)
              (some cr.user_id) now, Out.askReason) ∧
       (reviewAuth db false cid s a chat u true rmid now).1.step_state = db.step_state) ∧
    (∀ (p : PendingInput) (db0 : DB),
       pop_pending_input db chat u "AUTH_REJECT_REASON" = (some p, db0) →
       strip text = "" →
       onTextMsg db chat u text mid now
         = (set_pending_input db0 chat u "AUTH_REJECT_REASON" p.case_id p.step_no p.attempt
              p.reply_to_message_id p.tech_user_id now, Out.needValidReason) ∧
       (onTextMsg db chat u text mid now).1.step_state = db.step_state) ∧
    (∀ (p : PendingInput) (db0 : DB) (cd : CaseRow) (row : StepState),
       pop_pending_input db chat u "AUTH_REJECT_REASON" = (some p, db0) →
       strip text ≠ "" → get_case db0 p.case_id = some cd → cd.status = "OPEN" →
       find_step db0 p.case_id (-p.step_no) p.attempt = some row →
       find_step (onTextMsg db chat u text mid now).1 p.case_id (-p.step_no) p.attempt
         = some { row with approved := some false, reviewed_by := some u,
                           reviewed_at := some now, reject_reason := some (strip text),
                           reject_reason_by := some u, reject_reason_at := some now } ∧
       get_media_rows (onTextMsg db chat u text mid now).1 p.case_id (-p.step_no) p.attempt
         = [] ∧
       get_case (onTextMsg db chat u text mid now).1 p.case_id
         = some { cd with phase := "AUTH_ASK", pending_step_no := some p.step_no } ∧
       (onTextMsg db chat u text mid now).1.auth_text = db.auth_text) := by
  refine ⟨?_, ?_, ?_⟩
  · intro cid s a cr row rmid hc ho hfa hap
    have hap' : row.approved.isSome = false := by simp [hap]
    have he : reviewAuth db false cid s a chat u true rmid now
        = (set_pending_input db chat u "AUTH_REJECT_REASON" cid s a (some rmid)
             (some cr.user_id) now, Out.askReason) := by
      simp [reviewAuth, hc, ho, hfa, hap']
    have h1 : (reviewAuth db false cid s a chat u true rmid now).1
        = set_pending_input db chat u "AUTH_REJECT_REASON" cid s a (some rmid)
            (some cr.user_id) now := congrArg Prod.fst he
    exact ⟨he, by rw [h1]; rfl⟩
  · intro p db0 hpop hempty
    have he : onTextMsg db chat u text mid now
        = (set_pending_input db0 chat u "AUTH_REJECT_REASON" p.case_id p.step_no p.attempt
             p.reply_to_message_id p.tech_user_id now, Out.needValidReason) := by
      simp [onTextMsg, hpop, hempty]
    have h1 : (onTextMsg db chat u text mid now).1
        = set_pending_input db0 chat u "AUTH_REJECT_REASON" p.case_id p.step_no p.attempt
            p.reply_to_message_id p.tech_user_id now := congrArg Prod.fst he
    have h2 : (pop_pending_input db chat u "AUTH_REJECT_REASON").2 = db0 := by rw [hpop]
    have hst : db0.step_state = db.step_state := by
      rw [← h2]
      exact (pop_pending_projections db chat u "AUTH_REJECT_REASON").1
    refine ⟨he, ?_⟩
    rw [h1]
    exact hst
  · intro p db0 cd row hpop hne hcase hcd hfa
    have h2 : (pop_pending_input db chat u "AUTH_REJECT_REASON").2 = db0 := by rw [hpop]
    have hat0 : db0.auth_text = db.auth_text := by
      rw [← h2]
      exact (pop_pending_projections db chat u "AUTH_REJECT_REASON").2.2.1
    by_cases hmr : (get_media_rows (set_reject_reason (set_review db0 p.case_id (-p.step_no)
        p.attempt false u now) p.case_id (-p.step_no) p.attempt (strip text) u now)
        p.case_id (-p.step_no) p.attempt).isEmpty = true
    · have he : onTextMsg db chat u text mid now
          = (update_case (set_reject_reason (set_review db0 p.case_id (-p.step_no) p.attempt
                false u now) p.case_id (-p.step_no) p.attempt (strip text) u now) p.case_id
               (fun r => { r with phase := "AUTH_ASK", pending_step_no := some p.step_no }),
             Out.authRejected (strip text)
               ((get_media_rows (set_reject_reason (set_review db0 p.case_id (-p.step_no)
                   p.attempt false u now) p.case_id (-p.step_no) p.attempt (strip text) u now)
                   p.case_id (-p.step_no) p.attempt).map (fun m => m.tg_message_id))) := by
        simp [onTextMsg, hpop, hne, hcase, hcd, hmr]
      have h1 := congrArg Prod.fst he
      refine ⟨?_, ?_, ?_, ?_⟩
      · rw [h1, find_step_update_case, find_step_set_reject_reason, find_step_set_review, hfa]
        rfl
      · rw [h1]
        have hg : get_media_rows (update_case (set_reject_reason (set_review db0 p.case_id
            (-p.step_no) p.attempt false u now) p.case_id (-p.step_no) p.attempt (strip text)
            u now) p.case_id
            (fun r => { r with phase := "AUTH_ASK", pending_step_no := some p.step_no }))
            p.case_id (-p.step_no) p.attempt
            = get_media_rows (set_reject_reason (set_review db0 p.case_id (-p.step_no)
                p.attempt false u now) p.case_id (-p.step_no) p.attempt (strip text) u now)
                p.case_id (-p.step_no) p.attempt := rfl
        rw [hg]
        exact List.isEmpty_iff.mp hmr
      · rw [h1, get_case_update_case (set_reject_reason (set_review db0 p.case_id (-p.step_no)
            p.attempt false u now) p.case_id (-p.step_no) p.attempt (strip text) u now)
            p.case_id
            (fun r => { r with phase := "AUTH_ASK", pending_step_no := some p.step_no })
            (fun r => rfl)]
        have hgc : get_case (set_reject_reason (set_review db0 p.case_id (-p.step_no) p.attempt
            false u now) p.case_id (-p.step_no) p.attempt (strip text) u now) p.case_id
            = get_case db0 p.case_id := rfl
        rw [hgc, hcase]
        rfl
      · rw [h1]
        exact hat0
    · have he : onTextMsg db chat u text mid now
          = (update_case (delete_media_rows (set_reject_reason (set_review db0 p.case_id
                (-p.step_no) p.attempt false u now) p.case_id (-p.step_no) p.attempt
                (strip text) u now) p.case_id (-p.step_no) p.attempt) p.case_id
               (fun r => { r with phase := "AUTH_ASK", pending_step_no := some p.step_no }),
             Out.authRejected (strip text)
               ((get_media_rows (set_reject_reason (set_review db0 p.case_id (-p.step_no)
                   p.attempt false u now) p.case_id (-p.step_no) p.attempt (strip text) u now)
                   p.case_id (-p.step_no) p.attempt).map (fun m => m.tg_message_id))) := by
        simp [onTextMsg, hpop, hne, hcase, hcd, hmr]
      have h1 := congrArg Prod.fst he
      refine ⟨?_, ?_, ?_, ?_⟩
      · rw [h1, find_step_update_case, find_step_delete_media, find_step_set_reject_reason,
            find_step_set_review, hfa]
        rfl
      · rw [h1]
        have hg : get_media_rows (update_case (delete_media_rows (set_reject_reason
            (set_review db0 p.case_id (-p.step_no) p.attempt false u now) p.case_id
            (-p.step_no) p.attempt (strip text) u now) p.case_id (-p.step_no) p.attempt)
            p.case_id
            (fun r => { r with phase := "AUTH_ASK", pending_step_no := some p.step_no }))
            p.case_id (-p.step_no) p.attempt
            = get_media_rows (delete_media_rows (set_reject_reason (set_review db0 p.case_id
                (-p.step_no) p.attempt false u now) p.case_id (-p.step_no) p.attempt
                (strip text) u now) p.case_id (-p.step_no) p.attempt)
                p.case_id (-p.step_no) p.attempt := rfl
        rw [hg, get_media_rows_delete]
      · rw [h1, get_case_update_case (delete_media_rows (set_reject_reason (set_review db0
            p.case_id (-p.step_no) p.attempt false u now) p.case_id (-p.step_no) p.attempt
            (strip text) u now) p.case_id (-p.step_no) p.attempt) p.case_id
            (fun r => { r with phase := "AUTH_ASK", pending_step_no := some p.step_no })
            (fun r => rfl)]
        have hgc : get_case (delete_media_rows (set_reject_reason (set_review db0 p.case_id
            (-p.step_no) p.attempt false u now) p.case_id (-p.step_no) p.attempt (strip text)
            u now) p.case_id (-p.step_no) p.attempt) p.case_id
            = get_case db0 p.case_id := rfl
        rw [hgc, hcase]
        rfl
      · rw [h1]
        exact hat0

/-- Witness for C8's amended theorem at the concrete authorization store:
finalizing with reason "motivo" marks the auth attempt rejected with the
reason recorded, and the stored authorization text survives. -/
theorem C8_auth_reject_flow_witness :
    strip "motivo" ≠ "" ∧
    find_step (onTextMsg caseAuthDB 100 9 "motivo" 77 "T2").1 1 (-5) 1
      = some ⟨1, -5, 1, true, some false, some 9, some "T2", "T0", some "motivo", some 9,
              some "T2"⟩ ∧
    (onTextMsg caseAuthDB 100 9 "motivo" 77 "T2").1.auth_text = caseAuthDB.auth_text :=
  ⟨by decide,
   by
     have h := (C8_auth_reject_flow caseAuthDB 100 9 "motivo" 77 "T2").2.2
       ⟨1, 100, 9, "AUTH_REJECT_REASON", 1, 5, 1, "T0", some 50, some 7⟩
       { caseAuthDB with pending_inputs := [] } caseAuth
       ⟨1, -5, 1, true, none, none, none, "T0", none, none, none⟩
       (by decide) (by decide) (by decide) rfl (by decide)
     exact h.1,
   by
     have h := (C8_auth_reject_flow caseAuthDB 100 9 "motivo" 77 "T2").2.2
       ⟨1, 100, 9, "AUTH_REJECT_REASON", 1, 5, 1, "T0", some 50, some 7⟩
       { caseAuthDB with pending_inputs := [] } caseAuth
       ⟨1, -5, 1, true, none, none, none, "T0", none, none, none⟩
       (by decide) (by decide) (by decide) rfl (by decide)
     exact h.2.2.2⟩

-- ===== frame infrastructure for the closed-case claim =====

/-- The attempts of one case. -/
def caseStepRows (db : DB) (c : Nat) : List StepState :=
  db.step_state.filter (fun r => r.case_id == c)

/-- The media items of one case. -/
def caseMediaRows (db : DB) (c : Nat) : List MediaRow :=
  db.media.filter (fun m => m.case_id == c)

/-- The authorization texts of one case. -/
def caseAuthRows (db : DB) (c : Nat) : List AuthTextRow :=
  db.auth_text.filter (fun t => t.case_id == c)

/-- Field `case_id` is a primary key: all rows of `cases` carry distinct ids. -/
def uniqueCaseIds (db : DB) : Prop :=
  db.cases.Pairwise (fun a b => a.case_id ≠ b.case_id)

/-- Between two stores, case `c` owns exactly the same attempts, media and
authorization texts. -/
def frozenFor (db db' : DB) (c : Nat) : Prop :=
  caseStepRows db' c = caseStepRows db c ∧ caseMediaRows db' c = caseMediaRows db c ∧
  caseAuthRows db' c = caseAuthRows db c

theorem frozenFor_refl (db : DB) (c : Nat) : frozenFor db db c := ⟨rfl, rfl, rfl⟩

theorem frozenFor_trans (db1 db2 db3 : DB) (c : Nat) (h1 : frozenFor db1 db2 c)
    (h2 : frozenFor db2 db3 c) : frozenFor db1 db3 c :=
  ⟨h2.1.trans h1.1, h2.2.1.trans h1.2.1, h2.2.2.trans h1.2.2⟩

theorem pairwise_key_eq {α : Type} (key : α → Nat) (l : List α)
    (h : l.Pairwise (fun a b => key a ≠ key b)) (r1 r2 : α) (h1 : r1 ∈ l) (h2 : r2 ∈ l)
    (he : key r1 = key r2) : r1 = r2 := by
  induction l with
  | nil => cases h1
  | cons x xs ih =>
      have hx := (List.pairwise_cons.mp h).1
      have hxs := (List.pairwise_cons.mp h).2
      cases h1 with
      | head =>
          cases h2 with
          | head => rfl
          | tail _ h2' => exact absurd he (hx r2 h2')
      | tail _ h1' =>
          cases h2 with
          | head => exact absurd he.symm (hx r1 h1')
          | tail _ h2' => exact ih hxs h1' h2'

theorem get_case_spec (db : DB) (c : Nat) (cr : CaseRow) (h : get_case db c = some cr) :
    cr ∈ db.cases ∧ cr.case_id = c := by
  refine ⟨List.mem_of_find?_eq_some h, ?_⟩
  have := List.find?_some h
  simpa using this

theorem get_open_case_spec (db : DB) (chat : Int) (u : Nat) (r : CaseRow)
    (h : get_open_case db chat u = some r) : r ∈ db.cases ∧ r.status = "OPEN" := by
  have hmem := maxByCaseId_mem _ _ h
  have hf := List.mem_filter.mp hmem
  refine ⟨hf.1, ?_⟩
  have := hf.2
  simp only [Bool.and_eq_true, beq_iff_eq] at this
  exact this.2

theorem maxByAttempt_mem (l : List StepState) (r : StepState) (h : maxByAttempt l = some r) :
    r ∈ l := by
  induction l with
  | nil => simp [maxByAttempt] at h
  | cons x xs ih =>
      simp only [maxByAttempt] at h
      cases hm : maxByAttempt xs with
      | none => rw [hm] at h; simp at h; simp [h]
      | some b =>
          rw [hm] at h
          dsimp only at h
          split at h
          · simp at h; simp [h]
          · simp at h; right; exact ih (h ▸ hm)

theorem ensure_key_fields (db : DB) (c0 : Nat) (s : Int) (t : String) :
    (ensure_step_state db c0 s t).1.case_id = c0 ∧ (ensure_step_state db c0 s t).1.step_no = s := by
  unfold ensure_step_state
  cases hm : maxByAttempt (db.step_state.filter
      (fun r => r.case_id == c0 && r.step_no == s && !r.submitted)) with
  | none => exact ⟨rfl, rfl⟩
  | some row =>
      have hmem := maxByAttempt_mem _ _ hm
      have hp := (List.mem_filter.mp hmem).2
      simp only [Bool.and_eq_true, beq_iff_eq] at hp
      show row.case_id = c0 ∧ row.step_no = s
      exact ⟨hp.1.1, hp.1.2⟩

theorem frozen_step_map (db : DB) (g : StepState → StepState) (c : Nat)
    (h1 : ∀ r, (g r).case_id = r.case_id) (hfix : ∀ r, r.case_id = c → g r = r) :
    frozenFor db { db with step_state := db.step_state.map g } c := by
  refine ⟨?_, rfl, rfl⟩
  show (db.step_state.map g).filter _ = _
  exact filter_map_fix _ g _ (fun r hr => hfix r (by simpa using hr)) (fun r => by simp [h1])

theorem stepKey_ne_case (c0 : Nat) (s0 : Int) (a0 : Nat) (c : Nat) (hne : c0 ≠ c)
    (r : StepState) (hr : r.case_id = c) : stepKey c0 s0 a0 r = false := by
  have hb : (r.case_id == c0) = false := by
    rw [hr]
    exact beq_eq_false_iff_ne.mpr (fun h => hne h.symm)
  simp [stepKey, hb]

theorem frozen_mark_submitted (db : DB) (c0 : Nat) (s0 : Int) (a0 : Nat) (c : Nat)
    (hne : c0 ≠ c) : frozenFor db (mark_submitted db c0 s0 a0) c :=
  frozen_step_map db _ c (fun r => by by_cases h : stepKey c0 s0 a0 r = true <;> simp [h])
    (fun r hr => by rw [stepKey_ne_case c0 s0 a0 c hne r hr]; rfl)

theorem frozen_set_review (db : DB) (c0 : Nat) (s0 : Int) (a0 : Nat) (b : Bool) (u : Nat)
    (t : String) (c : Nat) (hne : c0 ≠ c) : frozenFor db (set_review db c0 s0 a0 b u t) c :=
  frozen_step_map db _ c (fun r => by by_cases h : stepKey c0 s0 a0 r = true <;> simp [h])
    (fun r hr => by rw [stepKey_ne_case c0 s0 a0 c hne r hr]; rfl)

theorem frozen_set_reject_reason (db : DB) (c0 : Nat) (s0 : Int) (a0 : Nat) (reason : String)
    (u : Nat) (t : String) (c : Nat) (hne : c0 ≠ c) :
    frozenFor db (set_reject_reason db c0 s0 a0 reason u t) c :=
  frozen_step_map db _ c (fun r => by by_cases h : stepKey c0 s0 a0 r = true <;> simp [h])
    (fun r hr => by rw [stepKey_ne_case c0 s0 a0 c hne r hr]; rfl)

theorem frozen_ensure (db : DB) (c0 : Nat) (s : Int) (t : String) (c : Nat) (hne : c0 ≠ c) :
    frozenFor db (ensure_step_state db c0 s t).2 c := by
  unfold ensure_step_state
  cases hm : maxByAttempt (db.step_state.filter
      (fun r => r.case_id == c0 && r.step_no == s && !r.submitted)) with
  | some row => exact frozenFor_refl db c
  | none =>
      refine ⟨?_, rfl, rfl⟩
      show (db.step_state ++ [_]).filter _ = _
      exact filter_append_not _ _ _ (by simp [hne])

theorem frozen_add_media (db : DB) (c0 : Nat) (s : Int) (a : Nat) (ft fid fuid : String)
    (mid : Nat) (mj now : String) (c : Nat) (hne : c0 ≠ c) :
    frozenFor db (add_media db c0 s a ft fid fuid mid mj now) c := by
  refine ⟨rfl, ?_, rfl⟩
  show (db.media ++ [_]).filter _ = _
  exact filter_append_not _ _ _ (by simp [hne])

theorem frozen_delete_media (db : DB) (c0 : Nat) (s : Int) (a : Nat) (c : Nat) (hne : c0 ≠ c) :
    frozenFor db (delete_media_rows db c0 s a) c := by
  refine ⟨rfl, ?_, rfl⟩
  show (db.media.filter _).filter _ = _
  refine filter_filter_drop _ _ _ (fun m hm => ?_)
  have hc : m.case_id = c := by simpa using hm
  have hb : (m.case_id == c0) = false := by
    rw [hc]
    exact beq_eq_false_iff_ne.mpr (fun h => hne h.symm)
  simp [hb]

theorem frozen_save_auth_text (db : DB) (c0 : Nat) (s : Int) (a : Nat) (text : String)
    (mid : Nat) (now : String) (c : Nat) (hne : c0 ≠ c) :
    frozenFor db (save_auth_text db c0 s a text mid now) c := by
  refine ⟨rfl, rfl, ?_⟩
  show (db.auth_text ++ [_]).filter _ = _
  exact filter_append_not _ _ _ (by simp [hne])

theorem frozen_update_case (db : DB) (cid : Nat) (f : CaseRow → CaseRow) (c : Nat) :
    frozenFor db (update_case db cid f) c := ⟨rfl, rfl, rfl⟩

theorem frozen_set_pending (db : DB) (chat : Int) (u : Nat) (k : String) (cid : Nat)
    (s : Int) (a : Nat) (rm : Option Nat) (tu : Option Nat) (now : String) (c : Nat) :
    frozenFor db (set_pending_input db chat u k cid s a rm tu now) c := ⟨rfl, rfl, rfl⟩

theorem frozen_pop_pending (db : DB) (chat : Int) (u : Nat) (k : String) (c : Nat) :
    frozenFor db (pop_pending_input db chat u k).2 c := by
  have h := pop_pending_projections db chat u k
  exact ⟨by unfold caseStepRows; rw [h.1], by unfold caseMediaRows; rw [h.2.1],
         by unfold caseAuthRows; rw [h.2.2.1]⟩

theorem frozenFor_ite {P : Prop} [Decidable P] (db : DB) (X Y : DB × Out) (c : Nat)
    (hx : frozenFor db X.1 c) (hy : frozenFor db Y.1 c) :
    frozenFor db (if P then X else Y).1 c := by
  by_cases h : P
  · rw [if_pos h]; exact hx
  · rw [if_neg h]; exact hy

theorem open_case_ne_closed (db : DB) (c : Nat) (cr : CaseRow)
    (hclosed : get_case db c = some cr) (hcs : cr.status = "CLOSED") (hu : uniqueCaseIds db)
    (chat : Int) (u : Nat) (r : CaseRow) (hoc : get_open_case db chat u = some r) :
    r.case_id ≠ c := by
  intro hEq
  obtain ⟨hmem, hopen⟩ := get_open_case_spec db chat u r hoc
  obtain ⟨hmem2, hid2⟩ := get_case_spec db c cr hclosed
  have heq2 : r = cr :=
    pairwise_key_eq (fun x : CaseRow => x.case_id) db.cases hu r cr hmem hmem2
      (by show r.case_id = cr.case_id; rw [hEq, hid2])
  rw [heq2, hcs] at hopen
  exact absurd hopen (by decide)

theorem handler_case_ne_closed (db : DB) (c : Nat) (cr : CaseRow)
    (hclosed : get_case db c = some cr) (hcs : cr.status = "CLOSED") (cid : Nat) (r : CaseRow)
    (hg : get_case db cid = some r) (hopen : r.status = "OPEN") : cid ≠ c := by
  intro hEq
  rw [hEq, hclosed] at hg
  injection hg with h
  rw [← h, hcs] at hopen
  exact absurd hopen (by decide)

theorem frozen_appendToAttempt (db : DB) (st : StepState) (ft fid fuid : String) (mid : Nat)
    (mj now : String) (c : Nat) (hne : st.case_id ≠ c) :
    frozenFor db (appendToAttempt db st ft fid fuid mid mj now).1 c := by
  unfold appendToAttempt
  cases hs : st.submitted with
  | true => exact frozenFor_refl db c
  | false =>
      dsimp only
      by_cases hcap : MAX_MEDIA_PER_STEP ≤ media_count db st.case_id st.step_no st.attempt
      · rw [if_pos hcap]
        exact frozenFor_refl db c
      · rw [if_neg hcap]
        exact frozen_add_media db st.case_id st.step_no st.attempt ft fid fuid mid mj now c hne

theorem frozen_submitAttempt (db : DB) (st : StepState) (c : Nat) (hne : st.case_id ≠ c) :
    frozenFor db (submitAttempt db st).1 c := by
  unfold submitAttempt
  cases hs : st.submitted with
  | true => exact frozenFor_refl db c
  | false =>
      dsimp only
      by_cases hz : media_count db st.case_id st.step_no st.attempt ≤ 0
      · rw [if_pos hz]
        exact frozenFor_refl db c
      · rw [if_neg hz]
        exact frozen_mark_submitted db st.case_id st.step_no st.attempt c hne

theorem frozen_ensure_append (db : DB) (c0 : Nat) (s : Int) (t : String)
    (ft fid fuid : String) (mid : Nat) (mj now : String) (c : Nat) (hne : c0 ≠ c) :
    frozenFor db (appendToAttempt (ensure_step_state db c0 s t).2 (ensure_step_state db c0 s t).1
      ft fid fuid mid mj now).1 c :=
  frozenFor_trans _ _ _ _ (frozen_ensure db c0 s t c hne)
    (frozen_appendToAttempt _ _ ft fid fuid mid mj now c
      (by rw [(ensure_key_fields db c0 s t).1]; exact hne))

theorem frozen_ensure_submit (db : DB) (c0 : Nat) (s : Int) (t : String) (c : Nat)
    (hne : c0 ≠ c) :
    frozenFor db (submitAttempt (ensure_step_state db c0 s t).2
      (ensure_step_state db c0 s t).1).1 c :=
  frozenFor_trans _ _ _ _ (frozen_ensure db c0 s t c hne)
    (frozen_submitAttempt _ _ c (by rw [(ensure_key_fields db c0 s t).1]; exact hne))

theorem frozen_onMediaMsg (db : DB) (c : Nat) (cr : CaseRow)
    (hclosed : get_case db c = some cr) (hcs : cr.status = "CLOSED") (hu : uniqueCaseIds db)
    (chat : Int) (user : Nat) (ft fid fuid : String) (mid : Nat) (mj now : String) :
    frozenFor db (onMediaMsg db chat user ft fid fuid mid mj now).1 c := by
  unfold onMediaMsg
  cases hoc : get_open_case db chat user with
  | none => exact frozenFor_refl db c
  | some case_row =>
      have hne : case_row.case_id ≠ c :=
        open_case_ne_closed db c cr hclosed hcs hu chat user case_row hoc
      dsimp only
      by_cases h1 : case_row.phase ≠ "AUTH_MEDIA" ∧ case_row.phase ≠ "STEP_MEDIA"
      · rw [if_pos h1]
        exact frozenFor_refl db c
      · rw [if_neg h1]
        by_cases h2 : case_row.pending_step_no.getD 0 < STEP_FIRST_MEDIA ∨
            STEP_LAST_MEDIA < case_row.pending_step_no.getD 0
        · rw [if_pos h2]
          exact frozenFor_refl db c
        · rw [if_neg h2]
          by_cases h3 : case_row.phase = "AUTH_MEDIA"
          · rw [if_pos h3]
            exact frozen_ensure_append db case_row.case_id _ now ft fid fuid mid mj now c hne
          · rw [if_neg h3]
            exact frozen_ensure_append db case_row.case_id _ now ft fid fuid mid mj now c hne

theorem frozen_mediaDone (db : DB) (c : Nat) (cr : CaseRow)
    (hclosed : get_case db c = some cr) (hcs : cr.status = "CLOSED")
    (cid : Nat) (s : Int) (user : Nat) (now : String) :
    frozenFor db (mediaDone db cid s user now).1 c := by
  unfold mediaDone
  cases hg : get_case db cid with
  | none => exact frozenFor_refl db c
  | some case_row =>
      dsimp only
      by_cases hst : case_row.status ≠ "OPEN"
      · rw [if_pos hst]
        exact frozenFor_refl db c
      · rw [if_neg hst]
        have hne : cid ≠ c :=
          handler_case_ne_closed db c cr hclosed hcs cid case_row hg (not_not.mp hst)
        by_cases huser : case_row.user_id ≠ user
        · rw [if_pos huser]
          exact frozenFor_refl db c
        · rw [if_neg huser]
          exact frozen_ensure_submit db cid s now c hne

theorem frozen_authDone (db : DB) (c : Nat) (cr : CaseRow)
    (hclosed : get_case db c = some cr) (hcs : cr.status = "CLOSED")
    (cid : Nat) (s : Int) (user : Nat) (now : String) :
    frozenFor db (authDone db cid s user now).1 c := by
  unfold authDone
  cases hg : get_case db cid with
  | none => exact frozenFor_refl db c
  | some case_row =>
      dsimp only
      by_cases hst : case_row.status ≠ "OPEN"
      · rw [if_pos hst]
        exact frozenFor_refl db c
      · rw [if_neg hst]
        have hne : cid ≠ c :=
          handler_case_ne_closed db c cr hclosed hcs cid case_row hg (not_not.mp hst)
        by_cases huser : case_row.user_id ≠ user
        · rw [if_pos huser]
          exact frozenFor_refl db c
        · rw [if_neg huser]
          have hfr := frozen_ensure_submit db cid (-s) now c hne
          rcases hR : submitAttempt (ensure_step_state db cid (-s) now).2
              (ensure_step_state db cid (-s) now).1 with ⟨db', o⟩
          rw [hR] at hfr
          cases o <;> exact hfr

theorem frozen_reviewStep (db : DB) (c : Nat) (cr : CaseRow)
    (hclosed : get_case db c = some cr) (hcs : cr.status = "CLOSED")
    (ok : Bool) (cid : Nat) (s : Int) (a : Nat) (u : Nat) (admin : Bool) (dest : Option Int)
    (now : String) : frozenFor db (reviewStep db ok cid s a u admin dest now).1 c := by
  unfold reviewStep
  cases hadm : admin with
  | false => exact frozenFor_refl db c
  | true =>
      cases hg : get_case db cid with
      | none => exact frozenFor_refl db c
      | some case_row =>
          dsimp only
          by_cases hst : case_row.status ≠ "OPEN"
          · rw [if_pos hst]
            exact frozenFor_refl db c
          · rw [if_neg hst]
            have hne : cid ≠ c :=
              handler_case_ne_closed db c cr hclosed hcs cid case_row hg (not_not.mp hst)
            cases hf : find_step db cid s a with
            | none => exact frozenFor_refl db c
            | some row =>
                dsimp only
                by_cases hap : row.approved.isSome = true
                · rw [if_pos hap]
                  exact frozenFor_refl db c
                · rw [if_neg hap]
                  refine @frozenFor_ite (ok = true) _ db _ _ c ?_ ?_
                  · refine @frozenFor_ite (STEP_LAST_MEDIA ≤ s) _ db _ _ c ?_ ?_
                    · exact frozenFor_trans _ _ _ _
                        (frozen_set_review db cid s a true u now c hne)
                        (frozen_update_case _ cid _ c)
                    · exact frozenFor_trans _ _ _ _
                        (frozen_set_review db cid s a true u now c hne)
                        (frozen_update_case _ cid _ c)
                  · exact frozenFor_trans _ _ _ _
                      (frozen_set_review db cid s a false u now c hne)
                      (frozenFor_trans _ _ _ _
                        (frozen_delete_media _ cid s a c hne)
                        (frozen_update_case _ cid _ c))

theorem frozen_reviewAuth (db : DB) (c : Nat) (cr : CaseRow)
    (hclosed : get_case db c = some cr) (hcs : cr.status = "CLOSED")
    (ok : Bool) (cid : Nat) (s : Int) (a : Nat) (chat : Int) (u : Nat) (admin : Bool)
    (rmid : Nat) (now : String) :
    frozenFor db (reviewAuth db ok cid s a chat u admin rmid now).1 c := by
  unfold reviewAuth
  cases hadm : admin with
  | false => exact frozenFor_refl db c
  | true =>
      dsimp only
      cases hg : get_case db cid with
      | none => exact frozenFor_refl db c
      | some case_row =>
          dsimp only
          by_cases hst : case_row.status ≠ "OPEN"
          · rw [if_pos hst]
            exact frozenFor_refl db c
          · rw [if_neg hst]
            have hne : cid ≠ c :=
              handler_case_ne_closed db c cr hclosed hcs cid case_row hg (not_not.mp hst)
            cases hf : find_step db cid (-s) a with
            | none => exact frozenFor_refl db c
            | some row =>
                dsimp only
                by_cases hap : row.approved.isSome = true
                · rw [if_pos hap]
                  exact frozenFor_refl db c
                · rw [if_neg hap]
                  cases hok : ok with
                  | true =>
                      exact frozenFor_trans _ _ _ _
                        (frozen_set_review db cid (-s) a true u now c hne)
                        (frozen_update_case _ cid _ c)
                  | false =>
                      exact frozen_set_pending db chat u "AUTH_REJECT_REASON" cid s a
                        (some rmid) (some case_row.user_id) now c

theorem frozen_onTextMsg (db : DB) (c : Nat) (cr : CaseRow)
    (hclosed : get_case db c = some cr) (hcs : cr.status = "CLOSED") (hu : uniqueCaseIds db)
    (chat : Int) (user : Nat) (text : String) (mid : Nat) (now : String) :
    frozenFor db (onTextMsg db chat user text mid now).1 c := by
  have hpp := pop_pending_projections db chat user "AUTH_REJECT_REASON"
  have hfr0 := frozen_pop_pending db chat user "AUTH_REJECT_REASON" c
  unfold onTextMsg
  rcases hpop : pop_pending_input db chat user "AUTH_REJECT_REASON" with ⟨po, db0⟩
  rw [hpop] at hpp hfr0
  cases po with
  | some p =>
      dsimp only
      by_cases hre : strip text = ""
      · rw [if_pos hre]
        exact frozenFor_trans _ _ _ _ hfr0
          (frozen_set_pending db0 chat user "AUTH_REJECT_REASON" p.case_id p.step_no p.attempt
            p.reply_to_message_id p.tech_user_id now c)
      · rw [if_neg hre]
        cases hgc : get_case db0 p.case_id with
        | none => exact hfr0
        | some cd =>
            dsimp only
            by_cases hcd : cd.status ≠ "OPEN"
            · rw [if_pos hcd]
              exact hfr0
            · rw [if_neg hcd]
              have hgc' : get_case db p.case_id = some cd := by
                unfold get_case at hgc ⊢
                rw [← hpp.2.2.2]
                exact hgc
              have hne : p.case_id ≠ c :=
                handler_case_ne_closed db c cr hclosed hcs p.case_id cd hgc' (not_not.mp hcd)
              refine frozenFor_trans _ _ _ _ hfr0 ?_
              refine frozenFor_trans _ _ _ _
                (frozen_set_review db0 p.case_id (-p.step_no) p.attempt false user now c hne) ?_
              refine frozenFor_trans _ _ _ _
                (frozen_set_reject_reason _ p.case_id (-p.step_no) p.attempt (strip text) user
                  now c hne) ?_
              by_cases hmr : (get_media_rows (set_reject_reason (set_review db0 p.case_id
                  (-p.step_no) p.attempt false user now) p.case_id (-p.step_no) p.attempt
                  (strip text) user now) p.case_id (-p.step_no) p.attempt).isEmpty = true
              · rw [if_pos hmr]
                exact frozen_update_case _ p.case_id _ c
              · rw [if_neg hmr]
                exact frozenFor_trans _ _ _ _
                  (frozen_delete_media _ p.case_id (-p.step_no) p.attempt c hne)
                  (frozen_update_case _ p.case_id _ c)
  | none =>
      dsimp only
      cases hoc : get_open_case db chat user with
      | none => exact frozenFor_refl db c
      | some case_row =>
          have hne : case_row.case_id ≠ c :=
            open_case_ne_closed db c cr hclosed hcs hu chat user case_row hoc
          dsimp only
          by_cases hph : case_row.phase = "AUTH_TEXT_WAIT"
          · rw [if_pos hph]
            by_cases hrange : case_row.pending_step_no.getD 0 < STEP_FIRST_MEDIA ∨
                STEP_LAST_MEDIA < case_row.pending_step_no.getD 0
            · rw [if_pos hrange]
              exact frozenFor_refl db c
            · rw [if_neg hrange]
              by_cases ht : strip text = ""
              · rw [if_pos ht]
                exact frozenFor_refl db c
              · rw [if_neg ht]
                dsimp only
                refine frozenFor_trans _ _ _ _
                  (frozen_ensure db case_row.case_id (-(case_row.pending_step_no.getD 0)) now
                    c hne) ?_
                refine frozenFor_trans _ _ _ _
                  (frozen_save_auth_text
                    (ensure_step_state db case_row.case_id
                      (-(case_row.pending_step_no.getD 0)) now).2
                    case_row.case_id (case_row.pending_step_no.getD 0)
                    (ensure_step_state db case_row.case_id
                      (-(case_row.pending_step_no.getD 0)) now).1.attempt
                    (strip text) mid now c hne) ?_
                exact frozenFor_trans _ _ _ _
                  (frozen_mark_submitted _ case_row.case_id
                    (-(case_row.pending_step_no.getD 0))
                    (ensure_step_state db case_row.case_id
                      (-(case_row.pending_step_no.getD 0)) now).1.attempt c hne)
                  (frozen_update_case _ case_row.case_id _ c)
          · rw [if_neg hph]
            by_cases hsi : case_row.step_index ≠ 2
            · rw [if_pos hsi]
              exact frozenFor_refl db c
            · rw [if_neg hsi]
              by_cases ht : strip text = ""
              · rw [if_pos ht]
                exact frozenFor_refl db c
              · rw [if_neg ht]
                exact frozen_update_case db case_row.case_id _ c

theorem frozen_cancelCase (db : DB) (chat : Int) (u : Nat) (now : String) (c : Nat) :
    frozenFor db (cancelCase db chat u now).1 c := by
  unfold cancelCase
  cases get_open_case db chat u with
  | none => exact frozenFor_refl db c
  | some case_row => exact frozen_update_case db case_row.case_id _ c

theorem frozen_onLocation (db : DB) (chat : Int) (u : Nat) (lat lon : String) (now : String)
    (c : Nat) : frozenFor db (onLocation db chat u lat lon now).1 c := by
  unfold onLocation
  cases get_open_case db chat u with
  | none => exact frozenFor_refl db c
  | some case_row =>
      dsimp only
      by_cases hsi : case_row.step_index ≠ 3
      · rw [if_pos hsi]
        exact frozenFor_refl db c
      · rw [if_neg hsi]
        exact frozen_update_case db case_row.case_id _ c

theorem frozen_create_or_reset (db : DB) (chat : Int) (u : Nat) (username : String)
    (now : String) (c : Nat) : frozenFor db (create_or_reset_case db chat u username now).2 c := by
  unfold create_or_reset_case
  cases get_open_case db chat u with
  | none => exact ⟨rfl, rfl, rfl⟩
  | some case_row => exact frozen_update_case db case_row.case_id _ c

/-- C4: approving the attempt of the last evidence step (step 15, when the
case is OPEN, the reviewer an admin and the attempt unreviewed) sets the case
status to CLOSED with the finished timestamp and terminal phase, and emits
the close-summary effect towards the configured summary destination (the
summary is sent exactly when the routing has one). And in every store where
a case is CLOSED, every handler leaves that case's attempts, media and
authorization texts exactly as they were — no attempt or media item can ever
be created for a closed case. -/
theorem C4_close_and_freeze :
    (∀ (db : DB) (cid : Nat) (a u : Nat) (dest : Option Int) (now : String) (cr : CaseRow)
       (row : StepState),
       get_case db cid = some cr → cr.status = "OPEN" →
       find_step db cid 15 a = some row → row.approved = none →
       get_case (reviewStep db true cid 15 a u true dest now).1 cid
         = some { cr with status := "CLOSED", phase := "CLOSED", finished_at := some now,
                          pending_step_no := none } ∧
       (reviewStep db true cid 15 a u true dest now).2 = Out.caseClosed dest) ∧
    (∀ (db : DB) (c : Nat) (cr : CaseRow),
       get_case db c = some cr → cr.status = "CLOSED" → uniqueCaseIds db →
       (∀ (chat : Int) (user : Nat) (ft fid fuid : String) (mid : Nat) (mj now : String),
          frozenFor db (onMediaMsg db chat user ft fid fuid mid mj now).1 c) ∧
       (∀ (cid : Nat) (s : Int) (user : Nat) (now : String),
          frozenFor db (mediaDone db cid s user now).1 c) ∧
       (∀ (cid : Nat) (s : Int) (user : Nat) (now : String),
          frozenFor db (authDone db cid s user now).1 c) ∧
       (∀ (chat : Int) (user : Nat) (text : String) (mid : Nat) (now : String),
          frozenFor db (onTextMsg db chat user text mid now).1 c) ∧
       (∀ (ok : Bool) (cid : Nat) (s : Int) (a u : Nat) (admin : Bool) (dest : Option Int)
          (now : String), frozenFor db (reviewStep db ok cid s a u admin dest now).1 c) ∧
       (∀ (ok : Bool) (cid : Nat) (s : Int) (a : Nat) (chat : Int) (u : Nat) (admin : Bool)
          (rmid : Nat) (now : String),
          frozenFor db (reviewAuth db ok cid s a chat u admin rmid now).1 c) ∧
       (∀ (chat : Int) (u : Nat) (now : String),
          frozenFor db (cancelCase db chat u now).1 c) ∧
       (∀ (chat : Int) (u : Nat) (lat lon now : String),
          frozenFor db (onLocation db chat u lat lon now).1 c) ∧
       (∀ (chat : Int) (u : Nat) (username now : String),
          frozenFor db (create_or_reset_case db chat u username now).2 c)) := by
  refine ⟨?_, ?_⟩
  · intro db cid a u dest now cr row hc ho hf hap
    have hap' : row.approved.isSome = false := by simp [hap]
    have hlast : STEP_LAST_MEDIA ≤ (15 : Int) := by norm_num [STEP_LAST_MEDIA]
    have he : reviewStep db true cid 15 a u true dest now
        = (update_case (set_review db cid 15 a true u now) cid
             (fun r => { r with status := "CLOSED", phase := "CLOSED",
                                finished_at := some now, pending_step_no := none }),
           Out.caseClosed dest) := by
      simp [reviewStep, hc, ho, hf, hap', hlast]
    have h1 : (reviewStep db true cid 15 a u true dest now).1
        = update_case (set_review db cid 15 a true u now) cid
            (fun r => { r with status := "CLOSED", phase := "CLOSED",
                               finished_at := some now, pending_step_no := none }) :=
      congrArg Prod.fst he
    constructor
    · rw [h1, get_case_update_case (set_review db cid 15 a true u now) cid
          (fun r => { r with status := "CLOSED", phase := "CLOSED",
                             finished_at := some now, pending_step_no := none })
          (fun r => rfl)]
      have h2 : get_case (set_review db cid 15 a true u now) cid = get_case db cid := rfl
      rw [h2, hc]
      rfl
    · exact congrArg Prod.snd he
  · intro db c cr h1 h2 h3
    exact ⟨fun chat user ft fid fuid mid mj now =>
             frozen_onMediaMsg db c cr h1 h2 h3 chat user ft fid fuid mid mj now,
           fun cid s user now => frozen_mediaDone db c cr h1 h2 cid s user now,
           fun cid s user now => frozen_authDone db c cr h1 h2 cid s user now,
           fun chat user text mid now => frozen_onTextMsg db c cr h1 h2 h3 chat user text mid now,
           fun ok cid s a u admin dest now =>
             frozen_reviewStep db c cr h1 h2 ok cid s a u admin dest now,
           fun ok cid s a chat u admin rmid now =>
             frozen_reviewAuth db c cr h1 h2 ok cid s a chat u admin rmid now,
           fun chat u now => frozen_cancelCase db chat u now c,
           fun chat u lat lon now => frozen_onLocation db chat u lat lon now c,
           fun chat u username now => frozen_create_or_reset db chat u username now c⟩

/-- Open case collecting evidence for the final step 15, with the submitted
attempt and one stored item. -/
def caseClose : CaseRow :=
  ⟨1, 100, 7, "tech", "T0", none, "OPEN", 4, "STEP_MEDIA", some 15,
   some "FLORO FERNANDEZ VASQUEZ", some "ALTA NUEVA", some "AB1", none, none, none⟩

def closeDB : DB :=
  ⟨[caseClose], [], [⟨1, 15, 1, true, none, none, none, "T0", none, none, none⟩],
   [⟨1, 1, 15, 1, "photo", "f1", "u1", 41, "meta", "T0"⟩], [], [], 2, 2, 1, 1⟩

/-- The store after the admin approves the step-15 attempt. -/
def closedDB : DB := (reviewStep closeDB true 1 15 1 10 true (some 900) "T1").1

/-- Witness for C4 at the concrete store: approving step 15 closes the case
with finished timestamp T1 and emits the summary towards chat 900; a media
message sent afterwards leaves the closed case's rows frozen. -/
theorem C4_close_and_freeze_witness :
    get_case closeDB 1 = some caseClose ∧ caseClose.status = "OPEN" ∧
    get_case closedDB 1
      = some { caseClose with status := "CLOSED", phase := "CLOSED",
                              finished_at := some "T1", pending_step_no := none } ∧
    (reviewStep closeDB true 1 15 1 10 true (some 900) "T1").2 = Out.caseClosed (some 900) ∧
    frozenFor closedDB (onMediaMsg closedDB 100 7 "photo" "f9" "u9" 99 "meta" "T2").1 1 :=
  ⟨by decide, rfl,
   (C4_close_and_freeze.1 closeDB 1 1 10 (some 900) "T1" caseClose
      ⟨1, 15, 1, true, none, none, none, "T0", none, none, none⟩
      (by decide) rfl (by decide) rfl).1,
   (C4_close_and_freeze.1 closeDB 1 1 10 (some 900) "T1" caseClose
      ⟨1, 15, 1, true, none, none, none, "T0", none, none, none⟩
      (by decide) rfl (by decide) rfl).2,
   (C4_close_and_freeze.2 closedDB 1
      { caseClose with status := "CLOSED", phase := "CLOSED", finished_at := some "T1",
                       pending_step_no := none }
      (by decide) (by decide) (by unfold uniqueCaseIds; decide)).1 100 7 "photo" "f9" "u9" 99
     "meta" "T2"⟩

-- ===== attempt-numbering invariant =====

/-- The attempts of one (case, step) pair, in rowid order. -/
def pairRows (l : List StepState) (c : Nat) (s : Int) : List StepState :=
  l.filter (fun r => r.case_id == c && r.step_no == s)

/-- The spec's attempt invariant: for every (case, step), the attempt numbers
in insertion order are exactly 1, 2, …, n (strictly increasing from 1), and
at most one attempt is unsubmitted. -/
def stepInv (l : List StepState) : Prop :=
  ∀ (c : Nat) (s : Int),
    (pairRows l c s).map (fun r => r.attempt) = List.range' 1 (pairRows l c s).length ∧
    ((pairRows l c s).filter (fun r => !r.submitted)).length ≤ 1

/-- The invariant as a property of the store. -/
def stepInvDB (db : DB) : Prop := stepInv db.step_state

theorem stepInv_nil : stepInv [] := by
  intro c s
  exact ⟨rfl, by simp [pairRows]⟩

theorem unsub_pair (l : List StepState) (c : Nat) (s : Int) :
    (pairRows l c s).filter (fun r => !r.submitted)
      = l.filter (fun r => r.case_id == c && r.step_no == s && !r.submitted) := by
  unfold pairRows
  rw [List.filter_filter]
  refine List.filter_congr (fun r _ => ?_)
  cases hs : r.submitted <;> cases hc : (r.case_id == c) <;> cases hn : (r.step_no == s) <;>
    simp [hs, hc, hn]

theorem stepInv_map_update (l : List StepState) (g : StepState → StepState)
    (h1 : ∀ r, (g r).case_id = r.case_id) (h2 : ∀ r, (g r).step_no = r.step_no)
    (h3 : ∀ r, (g r).attempt = r.attempt)
    (h4 : ∀ r, (g r).submitted = true ∨ (g r).submitted = r.submitted)
    (h : stepInv l) : stepInv (l.map g) := by
  intro c s
  have hp : pairRows (l.map g) c s = (pairRows l c s).map g := by
    unfold pairRows
    exact pair_filter_map l g h1 h2 c s
  rw [hp]
  obtain ⟨hr, hu⟩ := h c s
  constructor
  · rw [List.map_map, List.length_map]
    have heq : (pairRows l c s).map ((fun r => r.attempt) ∘ g)
        = (pairRows l c s).map (fun r => r.attempt) :=
      List.map_congr_left (fun r _ => h3 r)
    rw [heq, hr]
  · refine le_trans (length_filter_map_le _ g _ (fun r hgr => ?_)) hu
    have hgf : (g r).submitted = false := by simpa using hgr
    cases h4 r with
    | inl ht => rw [ht] at hgf; exact absurd hgf (by decide)
    | inr he => rw [he] at hgf; simp [hgf]

theorem stepInvDB_mark_submitted (db : DB) (c : Nat) (s : Int) (a : Nat)
    (h : stepInvDB db) : stepInvDB (mark_submitted db c s a) :=
  stepInv_map_update db.step_state _
    (fun r => by by_cases hk : stepKey c s a r = true <;> simp [hk])
    (fun r => by by_cases hk : stepKey c s a r = true <;> simp [hk])
    (fun r => by by_cases hk : stepKey c s a r = true <;> simp [hk])
    (fun r => by by_cases hk : stepKey c s a r = true <;> simp [hk]) h

theorem stepInvDB_set_review (db : DB) (c : Nat) (s : Int) (a : Nat) (b : Bool) (u : Nat)
    (t : String) (h : stepInvDB db) : stepInvDB (set_review db c s a b u t) :=
  stepInv_map_update db.step_state _
    (fun r => by by_cases hk : stepKey c s a r = true <;> simp [hk])
    (fun r => by by_cases hk : stepKey c s a r = true <;> simp [hk])
    (fun r => by by_cases hk : stepKey c s a r = true <;> simp [hk])
    (fun r => Or.inr (by by_cases hk : stepKey c s a r = true <;> simp [hk])) h

theorem stepInvDB_set_reject_reason (db : DB) (c : Nat) (s : Int) (a : Nat) (reason : String)
    (u : Nat) (t : String) (h : stepInvDB db) :
    stepInvDB (set_reject_reason db c s a reason u t) :=
  stepInv_map_update db.step_state _
    (fun r => by by_cases hk : stepKey c s a r = true <;> simp [hk])
    (fun r => by by_cases hk : stepKey c s a r = true <;> simp [hk])
    (fun r => by by_cases hk : stepKey c s a r = true <;> simp [hk])
    (fun r => Or.inr (by by_cases hk : stepKey c s a r = true <;> simp [hk])) h

/-- When no unsubmitted attempt exists for (case, step), `ensure_step_state`
inserts the fresh attempt `_max_attempt + 1`, unsubmitted, approval unset. -/
theorem ensure_creates (db : DB) (c : Nat) (s : Int) (t : String)
    (hnone : db.step_state.filter
        (fun r => r.case_id == c && r.step_no == s && !r.submitted) = []) :
    ensure_step_state db c s t
      = (⟨c, s, _max_attempt db c s + 1, false, none, none, none, t, none, none, none⟩,
         { db with step_state := db.step_state ++
             [⟨c, s, _max_attempt db c s + 1, false, none, none, none, t, none, none,
               none⟩] }) := by
  unfold ensure_step_state
  rw [hnone]
  rfl

/-- Under the invariant, `ensure_step_state` returns the existing unsubmitted
attempt (store unchanged) whenever one exists. -/
theorem ensure_returns_active (db : DB) (c : Nat) (s : Int) (t : String) (r : StepState)
    (hinv : stepInvDB db) (hmem : r ∈ db.step_state) (hc : r.case_id = c)
    (hs : r.step_no = s) (hsub : r.submitted = false) :
    ensure_step_state db c s t = (r, db) := by
  have hrf : r ∈ db.step_state.filter
      (fun r => r.case_id == c && r.step_no == s && !r.submitted) :=
    List.mem_filter.mpr ⟨hmem, by simp [hc, hs, hsub]⟩
  have hle : (db.step_state.filter
      (fun r => r.case_id == c && r.step_no == s && !r.submitted)).length ≤ 1 := by
    rw [← unsub_pair]
    exact (hinv c s).2
  have hsingle : db.step_state.filter
      (fun r => r.case_id == c && r.step_no == s && !r.submitted) = [r] :=
    length_le_one_mem_eq _ r hle hrf
  unfold ensure_step_state
  rw [hsingle]
  rfl

/-- Operation `ensure_step_state` preserves the invariant. -/
theorem stepInvDB_ensure (db : DB) (c : Nat) (s : Int) (t : String) (h : stepInvDB db) :
    stepInvDB (ensure_step_state db c s t).2 := by
  cases hm : maxByAttempt (db.step_state.filter
      (fun r => r.case_id == c && r.step_no == s && !r.submitted)) with
  | some row =>
      have hdb : (ensure_step_state db c s t).2 = db := by
        unfold ensure_step_state
        rw [hm]
      rw [hdb]
      exact h
  | none =>
      have hnil := (maxByAttempt_eq_none _).mp hm
      have he := ensure_creates db c s t hnil
      have h2 : (ensure_step_state db c s t).2.step_state
          = db.step_state ++ [⟨c, s, _max_attempt db c s + 1, false, none, none, none, t,
              none, none, none⟩] := by
        rw [he]
      show stepInv (ensure_step_state db c s t).2.step_state
      rw [h2]
      intro c' s'
      by_cases hc1 : c' = c
      · by_cases hs1 : s' = s
        · subst hc1
          subst hs1
          have hp : pairRows (db.step_state ++ [⟨c', s', _max_attempt db c' s' + 1, false,
              none, none, none, t, none, none, none⟩]) c' s'
              = pairRows db.step_state c' s' ++ [⟨c', s', _max_attempt db c' s' + 1, false,
                  none, none, none, t, none, none, none⟩] := by
            unfold pairRows
            rw [List.filter_append]
            simp
          rw [hp]
          obtain ⟨hr, _⟩ := h c' s'
          have hmax : _max_attempt db c' s' = (pairRows db.step_state c' s').length := by
            show ((pairRows db.step_state c' s').map (fun r => r.attempt)).foldr max 0 = _
            rw [hr, foldr_max_range']
          constructor
          · rw [List.map_append, hr, List.length_append]
            have h1n : 1 + 1 * (pairRows db.step_state c' s').length
                = (pairRows db.step_state c' s').length + 1 := by omega
            show List.range' 1 (pairRows db.step_state c' s').length ++
                [_max_attempt db c' s' + 1]
                = List.range' 1 ((pairRows db.step_state c' s').length + 1)
            rw [hmax, List.range'_concat, h1n]
          · rw [List.filter_append]
            have hz : (pairRows db.step_state c' s').filter (fun r => !r.submitted) = [] := by
              rw [unsub_pair]
              exact hnil
            rw [hz]
            simp
        · have hp : pairRows (db.step_state ++ [⟨c, s, _max_attempt db c s + 1, false, none,
              none, none, t, none, none, none⟩]) c' s' = pairRows db.step_state c' s' := by
            unfold pairRows
            refine filter_append_not _ _ _ ?_
            have hb : ((s : Int) == s') = false :=
              beq_eq_false_iff_ne.mpr (fun hx => hs1 hx.symm)
            simp [hb]
          rw [hp]
          exact h c' s'
      · have hp : pairRows (db.step_state ++ [⟨c, s, _max_attempt db c s + 1, false, none,
            none, none, t, none, none, none⟩]) c' s' = pairRows db.step_state c' s' := by
          unfold pairRows
          refine filter_append_not _ _ _ ?_
          have hb : (c == c') = false := beq_eq_false_iff_ne.mpr (fun hx => hc1 hx.symm)
          simp [hb]
        rw [hp]
        exact h c' s'

theorem stepInvDB_ite {P : Prop} [Decidable P] (X Y : DB × Out) (hx : stepInvDB X.1)
    (hy : stepInvDB Y.1) : stepInvDB (if P then X else Y).1 := by
  by_cases h : P
  · rw [if_pos h]; exact hx
  · rw [if_neg h]; exact hy

theorem stepInvDB_iteDB {P : Prop} [Decidable P] (X Y : DB) (hx : stepInvDB X)
    (hy : stepInvDB Y) : stepInvDB (if P then X else Y) := by
  by_cases h : P
  · rw [if_pos h]; exact hx
  · rw [if_neg h]; exact hy

theorem stepInvDB_appendToAttempt (db : DB) (st : StepState) (ft fid fuid : String)
    (mid : Nat) (mj now : String) (h : stepInvDB db) :
    stepInvDB (appendToAttempt db st ft fid fuid mid mj now).1 := by
  unfold appendToAttempt
  cases hs : st.submitted with
  | true => exact h
  | false =>
      dsimp only
      by_cases hcap : MAX_MEDIA_PER_STEP ≤ media_count db st.case_id st.step_no st.attempt
      · rw [if_pos hcap]; exact h
      · rw [if_neg hcap]; exact h

theorem stepInvDB_submitAttempt (db : DB) (st : StepState) (h : stepInvDB db) :
    stepInvDB (submitAttempt db st).1 := by
  unfold submitAttempt
  cases hs : st.submitted with
  | true => exact h
  | false =>
      dsimp only
      by_cases hz : media_count db st.case_id st.step_no st.attempt ≤ 0
      · rw [if_pos hz]; exact h
      · rw [if_neg hz]
        exact stepInvDB_mark_submitted db st.case_id st.step_no st.attempt h

theorem stepInvDB_onMediaMsg (db : DB) (chat : Int) (user : Nat) (ft fid fuid : String)
    (mid : Nat) (mj now : String) (h : stepInvDB db) :
    stepInvDB (onMediaMsg db chat user ft fid fuid mid mj now).1 := by
  unfold onMediaMsg
  cases hoc : get_open_case db chat user with
  | none => exact h
  | some case_row =>
      dsimp only
      by_cases h1 : case_row.phase ≠ "AUTH_MEDIA" ∧ case_row.phase ≠ "STEP_MEDIA"
      · rw [if_pos h1]; exact h
      · rw [if_neg h1]
        by_cases h2 : case_row.pending_step_no.getD 0 < STEP_FIRST_MEDIA ∨
            STEP_LAST_MEDIA < case_row.pending_step_no.getD 0
        · rw [if_pos h2]; exact h
        · rw [if_neg h2]
          exact stepInvDB_appendToAttempt _ _ ft fid fuid mid mj now
            (stepInvDB_ensure db case_row.case_id _ now h)

theorem stepInvDB_mediaDone (db : DB) (cid : Nat) (s : Int) (user : Nat) (now : String)
    (h : stepInvDB db) : stepInvDB (mediaDone db cid s user now).1 := by
  unfold mediaDone
  cases hg : get_case db cid with
  | none => exact h
  | some case_row =>
      dsimp only
      by_cases hst : case_row.status ≠ "OPEN"
      · rw [if_pos hst]; exact h
      · rw [if_neg hst]
        by_cases huser : case_row.user_id ≠ user
        · rw [if_pos huser]; exact h
        · rw [if_neg huser]
          exact stepInvDB_submitAttempt _ _ (stepInvDB_ensure db cid s now h)

theorem stepInvDB_authDone (db : DB) (cid : Nat) (s : Int) (user : Nat) (now : String)
    (h : stepInvDB db) : stepInvDB (authDone db cid s user now).1 := by
  unfold authDone
  cases hg : get_case db cid with
  | none => exact h
  | some case_row =>
      dsimp only
      by_cases hst : case_row.status ≠ "OPEN"
      · rw [if_pos hst]; exact h
      · rw [if_neg hst]
        by_cases huser : case_row.user_id ≠ user
        · rw [if_pos huser]; exact h
        · rw [if_neg huser]
          have hsub := stepInvDB_submitAttempt (ensure_step_state db cid (-s) now).2
            (ensure_step_state db cid (-s) now).1 (stepInvDB_ensure db cid (-s) now h)
          rcases hR : submitAttempt (ensure_step_state db cid (-s) now).2
              (ensure_step_state db cid (-s) now).1 with ⟨db', o⟩
          rw [hR] at hsub
          cases o <;> exact hsub

theorem stepInvDB_reviewStep (db : DB) (ok : Bool) (cid : Nat) (s : Int) (a u : Nat)
    (admin : Bool) (dest : Option Int) (now : String) (h : stepInvDB db) :
    stepInvDB (reviewStep db ok cid s a u admin dest now).1 := by
  unfold reviewStep
  cases hadm : admin with
  | false => exact h
  | true =>
      cases hg : get_case db cid with
      | none => exact h
      | some case_row =>
          dsimp only
          by_cases hst : case_row.status ≠ "OPEN"
          · rw [if_pos hst]; exact h
          · rw [if_neg hst]
            cases hf : find_step db cid s a with
            | none => exact h
            | some row =>
                dsimp only
                by_cases hap : row.approved.isSome = true
                · rw [if_pos hap]; exact h
                · rw [if_neg hap]
                  refine @stepInvDB_ite (ok = true) _ _ _ ?_ ?_
                  · refine @stepInvDB_ite (STEP_LAST_MEDIA ≤ s) _ _ _ ?_ ?_
                    · exact stepInvDB_set_review db cid s a true u now h
                    · exact stepInvDB_set_review db cid s a true u now h
                  · exact stepInvDB_set_review db cid s a false u now h

theorem stepInvDB_reviewAuth (db : DB) (ok : Bool) (cid : Nat) (s : Int) (a : Nat)
    (chat : Int) (u : Nat) (admin : Bool) (rmid : Nat) (now : String) (h : stepInvDB db) :
    stepInvDB (reviewAuth db ok cid s a chat u admin rmid now).1 := by
  unfold reviewAuth
  cases hadm : admin with
  | false => exact h
  | true =>
      cases hg : get_case db cid with
      | none => exact h
      | some case_row =>
          dsimp only
          by_cases hst : case_row.status ≠ "OPEN"
          · rw [if_pos hst]; exact h
          · rw [if_neg hst]
            cases hf : find_step db cid (-s) a with
            | none => exact h
            | some row =>
                dsimp only
                by_cases hap : row.approved.isSome = true
                · rw [if_pos hap]; exact h
                · rw [if_neg hap]
                  refine @stepInvDB_ite (ok = true) _ _ _ ?_ ?_
                  · exact stepInvDB_set_review db cid (-s) a true u now h
                  · exact h

theorem stepInvDB_onTextMsg (db : DB) (chat : Int) (user : Nat) (text : String) (mid : Nat)
    (now : String) (h : stepInvDB db) : stepInvDB (onTextMsg db chat user text mid now).1 := by
  have hpp := pop_pending_projections db chat user "AUTH_REJECT_REASON"
  unfold onTextMsg
  rcases hpop : pop_pending_input db chat user "AUTH_REJECT_REASON" with ⟨po, db0⟩
  rw [hpop] at hpp
  have h0 : stepInvDB db0 := by
    show stepInv db0.step_state
    have : db0.step_state = db.step_state := hpp.1
    rw [this]
    exact h
  cases po with
  | some p =>
      dsimp only
      by_cases hre : strip text = ""
      · rw [if_pos hre]
        exact h0
      · rw [if_neg hre]
        cases hgc : get_case db0 p.case_id with
        | none => exact h0
        | some cd =>
            dsimp only
            by_cases hcd : cd.status ≠ "OPEN"
            · rw [if_pos hcd]
              exact h0
            · rw [if_neg hcd]
              have h2 := stepInvDB_set_reject_reason
                (set_review db0 p.case_id (-p.step_no) p.attempt false user now)
                p.case_id (-p.step_no) p.attempt (strip text) user now
                (stepInvDB_set_review db0 p.case_id (-p.step_no) p.attempt false user now h0)
              exact @stepInvDB_iteDB _ _ _ _ h2 h2
  | none =>
      dsimp only
      cases hoc : get_open_case db chat user with
      | none => exact h
      | some case_row =>
          dsimp only
          by_cases hph : case_row.phase = "AUTH_TEXT_WAIT"
          · rw [if_pos hph]
            by_cases hrange : case_row.pending_step_no.getD 0 < STEP_FIRST_MEDIA ∨
                STEP_LAST_MEDIA < case_row.pending_step_no.getD 0
            · rw [if_pos hrange]; exact h
            · rw [if_neg hrange]
              by_cases ht : strip text = ""
              · rw [if_pos ht]; exact h
              · rw [if_neg ht]
                exact stepInvDB_mark_submitted _ case_row.case_id
                  (-(case_row.pending_step_no.getD 0))
                  (ensure_step_state db case_row.case_id
                    (-(case_row.pending_step_no.getD 0)) now).1.attempt
                  (stepInvDB_ensure db case_row.case_id
                    (-(case_row.pending_step_no.getD 0)) now h)
          · rw [if_neg hph]
            by_cases hsi : case_row.step_index ≠ 2
            · rw [if_pos hsi]; exact h
            · rw [if_neg hsi]
              by_cases ht : strip text = ""
              · rw [if_pos ht]; exact h
              · rw [if_neg ht]; exact h

theorem stepInvDB_cancelCase (db : DB) (chat : Int) (u : Nat) (now : String)
    (h : stepInvDB db) : stepInvDB (cancelCase db chat u now).1 := by
  unfold cancelCase
  cases get_open_case db chat u with
  | none => exact h
  | some case_row => exact h

theorem stepInvDB_onLocation (db : DB) (chat : Int) (u : Nat) (lat lon now : String)
    (h : stepInvDB db) : stepInvDB (onLocation db chat u lat lon now).1 := by
  unfold onLocation
  cases get_open_case db chat u with
  | none => exact h
  | some case_row =>
      dsimp only
      by_cases hsi : case_row.step_index ≠ 3
      · rw [if_pos hsi]; exact h
      · rw [if_neg hsi]; exact h

theorem stepInvDB_create_or_reset (db : DB) (chat : Int) (u : Nat) (username now : String)
    (h : stepInvDB db) : stepInvDB (create_or_reset_case db chat u username now).2 := by
  unfold create_or_reset_case
  cases get_open_case db chat u with
  | none => exact h
  | some case_row => exact h

/-- One exposed operation of the system, with its inputs: the message and
callback handlers, the commands, and `ensure_step_state` itself. -/
inductive Op where
  | media (chat : Int) (user : Nat) (ft fid fuid : String) (mid : Nat) (mj now : String)
  | mediaDoneOp (cid : Nat) (s : Int) (user : Nat) (now : String)
  | authDoneOp (cid : Nat) (s : Int) (user : Nat) (now : String)
  | textOp (chat : Int) (user : Nat) (t : String) (mid : Nat) (now : String)
  | revStep (ok : Bool) (cid : Nat) (s : Int) (a u : Nat) (admin : Bool) (dest : Option Int)
      (now : String)
  | revAuth (ok : Bool) (cid : Nat) (s : Int) (a : Nat) (chat : Int) (u : Nat) (admin : Bool)
      (rmid : Nat) (now : String)
  | ensureOp (cid : Nat) (s : Int) (now : String)
  | cancelOp (chat : Int) (u : Nat) (now : String)
  | locationOp (chat : Int) (u : Nat) (lat lon now : String)
  | openCase (chat : Int) (u : Nat) (username now : String)

/-- Apply one operation to the store. -/
def applyOp (db : DB) : Op → DB
  | .media chat user ft fid fuid mid mj now => (onMediaMsg db chat user ft fid fuid mid mj now).1
  | .mediaDoneOp cid s user now => (mediaDone db cid s user now).1
  | .authDoneOp cid s user now => (authDone db cid s user now).1
  | .textOp chat user t mid now => (onTextMsg db chat user t mid now).1
  | .revStep ok cid s a u admin dest now => (reviewStep db ok cid s a u admin dest now).1
  | .revAuth ok cid s a chat u admin rmid now =>
      (reviewAuth db ok cid s a chat u admin rmid now).1
  | .ensureOp cid s now => (ensure_step_state db cid s now).2
  | .cancelOp chat u now => (cancelCase db chat u now).1
  | .locationOp chat u lat lon now => (onLocation db chat u lat lon now).1
  | .openCase chat u username now => (create_or_reset_case db chat u username now).2

/-- Run a sequence of operations. -/
def run (db : DB) (ops : List Op) : DB := ops.foldl applyOp db

theorem stepInvDB_applyOp (db : DB) (op : Op) (h : stepInvDB db) :
    stepInvDB (applyOp db op) := by
  cases op with
  | media chat user ft fid fuid mid mj now =>
      exact stepInvDB_onMediaMsg db chat user ft fid fuid mid mj now h
  | mediaDoneOp cid s user now => exact stepInvDB_mediaDone db cid s user now h
  | authDoneOp cid s user now => exact stepInvDB_authDone db cid s user now h
  | textOp chat user t mid now => exact stepInvDB_onTextMsg db chat user t mid now h
  | revStep ok cid s a u admin dest now =>
      exact stepInvDB_reviewStep db ok cid s a u admin dest now h
  | revAuth ok cid s a chat u admin rmid now =>
      exact stepInvDB_reviewAuth db ok cid s a chat u admin rmid now h
  | ensureOp cid s now => exact stepInvDB_ensure db cid s now h
  | cancelOp chat u now => exact stepInvDB_cancelCase db chat u now h
  | locationOp chat u lat lon now => exact stepInvDB_onLocation db chat u lat lon now h
  | openCase chat u username now => exact stepInvDB_create_or_reset db chat u username now h

theorem stepInvDB_run (ops : List Op) (db : DB) (h : stepInvDB db) :
    stepInvDB (run db ops) := by
  induction ops generalizing db with
  | nil => exact h
  | cons op rest ih => exact ih (applyOp db op) (stepInvDB_applyOp db op h)

theorem stepInv_single (r : StepState) (h1 : r.attempt = 1) : stepInv [r] := by
  intro c s
  unfold pairRows
  by_cases hk : (r.case_id == c && r.step_no == s) = true
  · have hf : List.filter (fun r => r.case_id == c && r.step_no == s) [r] = [r] := by
      simp [List.filter_cons, hk]
    rw [hf]
    constructor
    · simp [h1, List.range']
    · exact le_trans (List.length_filter_le _ _) (by simp)
  · have hf : List.filter (fun r => r.case_id == c && r.step_no == s) [r] = [] := by
      simp only [List.filter_cons, hk]
      rfl
    rw [hf]
    exact ⟨rfl, by simp⟩

/-- C7: for every (case, step), `ensure_step_state` returns the existing
unsubmitted attempt (store unchanged) when one exists; otherwise it creates
the attempt numbered one past the current maximum (`_max_attempt + 1`,
starting at 1 on an empty history since `_max_attempt` is then 0),
unsubmitted, with approval unset. The attempt invariant — numbers are
exactly 1..n in insertion order and at most one attempt per (case, step) is
unsubmitted — holds of the empty store and is preserved by every sequence of
the exposed operations (all message/callback handlers, the commands, and
`ensure_step_state` itself). -/
theorem C7_attempt_invariant :
    (∀ (db : DB) (c : Nat) (s : Int) (t : String) (r : StepState),
       stepInvDB db → r ∈ db.step_state → r.case_id = c → r.step_no = s →
       r.submitted = false → ensure_step_state db c s t = (r, db)) ∧
    (∀ (db : DB) (c : Nat) (s : Int) (t : String),
       db.step_state.filter (fun r => r.case_id == c && r.step_no == s && !r.submitted)
         = [] →
       ensure_step_state db c s t
         = (⟨c, s, _max_attempt db c s + 1, false, none, none, none, t, none, none, none⟩,
            { db with step_state := db.step_state ++ [⟨c, s, _max_attempt db c s + 1, false,
                none, none, none, t, none, none, none⟩] })) ∧
    stepInvDB emptyDB ∧
    (∀ (ops : List Op) (db : DB), stepInvDB db → stepInvDB (run db ops)) :=
  ⟨ensure_returns_active, ensure_creates, stepInv_nil, stepInvDB_run⟩

/-- Witness for C7: on the store holding the single unsubmitted attempt 1 of
(case 1, step 5), `ensure_step_state` returns it unchanged; and the
invariant holds after running open-case, ensure and submit on the empty
store. -/
theorem C7_attempt_invariant_witness :
    stepInvDB unsubmittedDB ∧
    ensure_step_state unsubmittedDB 1 5 "T3"
      = (⟨1, 5, 1, false, none, none, none, "T0", none, none, none⟩, unsubmittedDB) ∧
    stepInvDB (run emptyDB
      [Op.openCase 100 7 "tech" "T0", Op.ensureOp 1 5 "T1", Op.mediaDoneOp 1 5 7 "T2"]) :=
  ⟨stepInv_single ⟨1, 5, 1, false, none, none, none, "T0", none, none, none⟩ rfl,
   C7_attempt_invariant.1 unsubmittedDB 1 5 "T3"
     ⟨1, 5, 1, false, none, none, none, "T0", none, none, none⟩
     (stepInv_single ⟨1, 5, 1, false, none, none, none, "T0", none, none, none⟩ rfl)
     (by decide) rfl rfl rfl,
   C7_attempt_invariant.2.2.2
     [Op.openCase 100 7 "tech" "T0", Op.ensureOp 1 5 "T1", Op.mediaDoneOp 1 5 7 "T2"]
     emptyDB C7_attempt_invariant.2.2.1⟩

end BotFotos
